import Mathlib

/-!
Shallow embedding of the Beth Yw? Welsh government data parser
(src/measure.cpp, src/area.cpp, src/areas.cpp and their headers).

Conventions of the embedding:
- `std::map<K,V>` is a sorted association list `List (K × V)`; iteration
  order is list order, kept sorted by the insertion helpers below.
- `double` is modelled as `Rat`; the numeric text formatting of output
  streams is out of scope of the specification and is passed in as a
  parameter where rendering needs it.
- C++ exceptions are modelled with `Except String`, carrying the message
  the source constructs at the throw site.
- `::tolower` (C locale) maps the ASCII letters `A`..`Z` to `a`..`z` and
  leaves every other character unchanged.
-/

/-- Model of `::tolower` in the C locale on a single character. -/
def toLowerChar (c : Char) : Char :=
  if 65 ≤ c.toNat ∧ c.toNat ≤ 90 then Char.ofNat (c.toNat + 32) else c

/-- Model of `std::transform(s.begin(), s.end(), s.begin(), ::tolower)`. -/
def toLowerStr (s : String) : String := ⟨s.data.map toLowerChar⟩

theorem toNat_ofNat_valid (n : Nat) (h : n.isValidChar) : (Char.ofNat n).toNat = n := by
  simp [Char.ofNat, h, Char.ofNatAux, Char.toNat, UInt32.toNat]

theorem toLowerChar_idem (c : Char) : toLowerChar (toLowerChar c) = toLowerChar c := by
  unfold toLowerChar
  by_cases h : 65 ≤ c.toNat ∧ c.toNat ≤ 90
  · have hv : (c.toNat + 32).isValidChar := by
      unfold Nat.isValidChar
      omega
    rw [if_pos h]
    have hnot : ¬(65 ≤ (Char.ofNat (c.toNat + 32)).toNat ∧ (Char.ofNat (c.toNat + 32)).toNat ≤ 90) := by
      rw [toNat_ofNat_valid _ hv]
      omega
    rw [if_neg hnot]
  · simp [h]

theorem toLowerStr_idem (s : String) : toLowerStr (toLowerStr s) = toLowerStr s := by
  unfold toLowerStr
  simp [List.map_map, Function.comp_def, toLowerChar_idem]

/-- Predicate: a string is entirely lowercase, i.e. a fixed point of `toLowerStr`
(the invariant of §3 of the specification). -/
def LowerStr (s : String) : Prop := toLowerStr s = s

theorem lowerStr_toLowerStr (s : String) : LowerStr (toLowerStr s) := toLowerStr_idem s

/-- Lexicographic byte-wise comparison of character lists, mirroring
`std::less<std::string>` (the key order of `std::map<std::string, _>`). -/
def listLtB : List Char → List Char → Bool
  | [], [] => false
  | [], _ :: _ => true
  | _ :: _, [] => false
  | a :: as, b :: bs =>
    if a.toNat < b.toNat then true
    else if b.toNat < a.toNat then false
    else listLtB as bs

/-- String comparison used for `std::map<std::string, _>` keys. -/
def strLtB (a b : String) : Bool := listLtB a.data b.data

/-- Integer key comparison used for `std::map<int, _>` keys. -/
def intLtB (a b : Int) : Bool := decide (a < b)

theorem listLtB_trans : ∀ {a b c : List Char}, listLtB a b = true → listLtB b c = true → listLtB a c = true
  | [], [], _, h1, _ => by simp [listLtB] at h1
  | [], _ :: _, [], _, h2 => by simp [listLtB] at h2
  | [], _ :: _, _ :: _, _, _ => by simp [listLtB]
  | _ :: _, [], _, h1, _ => by simp [listLtB] at h1
  | _ :: _, _ :: _, [], _, h2 => by simp [listLtB] at h2
  | a :: as, b :: bs, c :: cs, h1, h2 => by
    simp only [listLtB] at h1 h2 ⊢
    split at h1
    · rename_i hab
      by_cases hbc : b.toNat < c.toNat
      · have : a.toNat < c.toNat := by omega
        simp [this]
      · split at h2
        · omega
        · split at h2
          · exact absurd h2 (by simp)
          · rename_i h3 h4
            have : a.toNat < c.toNat := by omega
            simp [this]
    · split at h1
      · exact absurd h1 (by simp)
      · rename_i hab hba
        have hab' : a.toNat = b.toNat := by omega
        split at h2
        · rename_i hbc
          have : a.toNat < c.toNat := by omega
          simp [this]
        · split at h2
          · exact absurd h2 (by simp)
          · rename_i hbc hcb
            have h5 : ¬ a.toNat < c.toNat := by omega
            have h6 : ¬ c.toNat < a.toNat := by omega
            simp only [h5, h6, if_neg, ite_false]
            exact listLtB_trans h1 h2

theorem listLtB_total : ∀ {a b : List Char}, listLtB a b = false → a ≠ b → listLtB b a = true
  | [], [], _, hne => absurd rfl hne
  | [], _ :: _, h1, _ => by simp [listLtB] at h1
  | _ :: _, [], _, _ => by simp [listLtB]
  | a :: as, b :: bs, h1, hne => by
    simp only [listLtB] at h1 ⊢
    split at h1
    · exact absurd h1 (by simp)
    · split at h1
      · rename_i hab hba
        simp [hba]
      · rename_i hab hba
        have hab' : a.toNat = b.toNat := by omega
        have heq : a = b := Char.ext (UInt32.toNat.inj hab')
        subst heq
        have : as ≠ bs := fun h => hne (by rw [h])
        simp only [hab, hba, if_neg, ite_false] at *
        have := listLtB_total h1 this
        simp [Nat.lt_irrefl, this]

theorem listLtB_irrefl : ∀ (a : List Char), listLtB a a = false
  | [] => rfl
  | _ :: as => by simp [listLtB, listLtB_irrefl as]

theorem strLtB_trans {a b c : String} (h1 : strLtB a b = true) (h2 : strLtB b c = true) :
    strLtB a c = true := listLtB_trans h1 h2

theorem strLtB_total {a b : String} (h1 : strLtB a b = false) (hne : a ≠ b) :
    strLtB b a = true := by
  refine listLtB_total h1 ?_
  intro h
  exact hne (by cases a; cases b; simp_all)

theorem strLtB_irrefl (a : String) : strLtB a a = false := listLtB_irrefl a.data

theorem intLtB_trans {a b c : Int} (h1 : intLtB a b = true) (h2 : intLtB b c = true) :
    intLtB a c = true := by
  simp only [intLtB, decide_eq_true_eq] at *
  omega

theorem intLtB_total {a b : Int} (h1 : intLtB a b = false) (hne : a ≠ b) :
    intLtB b a = true := by
  simp only [intLtB, decide_eq_true_eq, decide_eq_false_iff_not] at *
  omega

theorem intLtB_irrefl (a : Int) : intLtB a a = false := by
  simp [intLtB]

/-- Lookup in an association list modelling `std::map::find`. -/
def lookupMap {K V : Type} [DecidableEq K] : List (K × V) → K → Option V
  | [], _ => none
  | (k1, v1) :: t, k => if k = k1 then some v1 else lookupMap t k

/-- Sorted insert-or-overwrite, modelling `m[k] = v` on `std::map`. -/
def insMapBy {K V : Type} [DecidableEq K] (ltb : K → K → Bool) :
    List (K × V) → K → V → List (K × V)
  | [], k, v => [(k, v)]
  | (k1, v1) :: t, k, v =>
    if ltb k k1 then (k, v) :: (k1, v1) :: t
    else if k = k1 then (k, v) :: t
    else (k1, v1) :: insMapBy ltb t k v

/-- Model of `std::map::insert` / `emplace`: a no-op when the key is present,
a sorted insert otherwise. -/
def insMapKeepBy {K V : Type} [DecidableEq K] (ltb : K → K → Bool)
    (l : List (K × V)) (k : K) (v : V) : List (K × V) :=
  match lookupMap l k with
  | some _ => l
  | none => insMapBy ltb l k v

/-- Modify the value stored at a key in place (mutation through a `std::map`
iterator or reference); keys and order are untouched. -/
def updMap {K V : Type} [DecidableEq K] : List (K × V) → K → (V → V) → List (K × V)
  | [], _, _ => []
  | (k1, v1) :: t, k, f => if k1 = k then (k1, f v1) :: t else (k1, v1) :: updMap t k f

theorem lookupMap_insMapBy {K V : Type} [DecidableEq K] (ltb : K → K → Bool)
    (l : List (K × V)) (k : K) (v : V) (k2 : K) :
    lookupMap (insMapBy ltb l k v) k2 = if k2 = k then some v else lookupMap l k2 := by
  induction l with
  | nil => simp [insMapBy, lookupMap]
  | cons p t ih =>
    obtain ⟨k1, v1⟩ := p
    by_cases hlt : ltb k k1
    · simp only [insMapBy, if_pos hlt, lookupMap]
    · by_cases heq : k = k1
      · subst heq
        simp only [insMapBy, if_neg hlt, if_pos rfl, lookupMap]
        by_cases h2 : k2 = k <;> simp [h2]
      · simp only [insMapBy, if_neg hlt, if_neg heq, lookupMap]
        by_cases h2 : k2 = k1
        · subst h2
          have hne : ¬ k2 = k := fun hc => heq (hc ▸ rfl)
          simp [hne]
        · simp [h2, ih]

theorem lookupMap_insMapKeepBy {K V : Type} [DecidableEq K] (ltb : K → K → Bool)
    (l : List (K × V)) (k : K) (v : V) (k2 : K) :
    lookupMap (insMapKeepBy ltb l k v) k2 =
      match lookupMap l k with
      | some _ => lookupMap l k2
      | none => if k2 = k then some v else lookupMap l k2 := by
  unfold insMapKeepBy
  split
  · rename_i h
    simp [h]
  · rename_i h
    simp [h, lookupMap_insMapBy]

theorem lookupMap_updMap {K V : Type} [DecidableEq K] (l : List (K × V)) (k : K)
    (f : V → V) (k2 : K) :
    lookupMap (updMap l k f) k2 =
      if k2 = k then (lookupMap l k).map f else lookupMap l k2 := by
  induction l with
  | nil => simp [updMap, lookupMap]
  | cons p t ih =>
    obtain ⟨k1, v1⟩ := p
    by_cases h1 : k1 = k
    · subst h1
      simp only [updMap, if_pos rfl, lookupMap]
      by_cases h2 : k2 = k1
      · simp [h2]
      · simp [h2, ih]
    · simp only [updMap, if_neg h1, lookupMap]
      have h3 : ¬ k = k1 := fun hc => h1 hc.symm
      by_cases h2 : k2 = k1
      · subst h2
        have hne : ¬ k2 = k := h1
        simp [hne]
      · simp [h2, h3, ih]

theorem mem_insMapBy {K V : Type} [DecidableEq K] (ltb : K → K → Bool)
    (l : List (K × V)) (k : K) (v : V) (p : K × V) :
    p ∈ insMapBy ltb l k v → p = (k, v) ∨ p ∈ l := by
  induction l with
  | nil => simp [insMapBy]
  | cons q t ih =>
    obtain ⟨k1, v1⟩ := q
    simp only [insMapBy]
    split
    · intro h
      rcases List.mem_cons.mp h with h | h
      · exact Or.inl h
      · exact Or.inr h
    · split
      · intro h
        rcases List.mem_cons.mp h with h | h
        · exact Or.inl h
        · exact Or.inr (List.mem_cons_of_mem _ h)
      · intro h
        rcases List.mem_cons.mp h with h | h
        · exact Or.inr (h ▸ List.mem_cons_self _ _)
        · rcases ih h with h2 | h2
          · exact Or.inl h2
          · exact Or.inr (List.mem_cons_of_mem _ h2)

theorem mem_insMapKeepBy {K V : Type} [DecidableEq K] (ltb : K → K → Bool)
    (l : List (K × V)) (k : K) (v : V) (p : K × V) :
    p ∈ insMapKeepBy ltb l k v → p = (k, v) ∨ p ∈ l := by
  unfold insMapKeepBy
  split
  · exact fun h => Or.inr h
  · exact mem_insMapBy ltb l k v p

theorem mem_updMap {K V : Type} [DecidableEq K] (l : List (K × V)) (k : K)
    (f : V → V) (p : K × V) :
    p ∈ updMap l k f → p ∈ l ∨ ∃ q ∈ l, p = (q.1, f q.2) := by
  induction l with
  | nil => simp [updMap]
  | cons q t ih =>
    obtain ⟨k1, v1⟩ := q
    by_cases h1 : k1 = k
    · simp only [updMap, if_pos h1]
      intro h
      rcases List.mem_cons.mp h with h | h
      · exact Or.inr ⟨(k1, v1), List.mem_cons_self _ _, h⟩
      · exact Or.inl (List.mem_cons_of_mem _ h)
    · simp only [updMap, if_neg h1]
      intro h
      rcases List.mem_cons.mp h with h | h
      · exact Or.inl (h ▸ List.mem_cons_self _ _)
      · rcases ih h with h2 | ⟨q, hq, hpq⟩
        · exact Or.inl (List.mem_cons_of_mem _ h2)
        · exact Or.inr ⟨q, List.mem_cons_of_mem _ hq, hpq⟩

theorem pairwise_insMapBy {K V : Type} [DecidableEq K] (ltb : K → K → Bool)
    (htrans : ∀ {a b c : K}, ltb a b = true → ltb b c = true → ltb a c = true)
    (htotal : ∀ {a b : K}, ltb a b = false → a ≠ b → ltb b a = true)
    (l : List (K × V)) (k : K) (v : V)
    (hs : l.Pairwise (fun p q => ltb p.1 q.1 = true)) :
    (insMapBy ltb l k v).Pairwise (fun p q => ltb p.1 q.1 = true) := by
  induction l with
  | nil => simp [insMapBy]
  | cons q t ih =>
    obtain ⟨k1, v1⟩ := q
    rcases List.pairwise_cons.mp hs with ⟨hhead, htail⟩
    simp only [insMapBy]
    split
    · rename_i hlt
      refine List.pairwise_cons.mpr ⟨?_, hs⟩
      intro p hp
      rcases List.mem_cons.mp hp with h | h
      · subst h
        exact hlt
      · exact htrans hlt (hhead p h)
    · split
      · rename_i hlt heq
        subst heq
        exact List.pairwise_cons.mpr ⟨hhead, htail⟩
      · rename_i hlt heq
        refine List.pairwise_cons.mpr ⟨?_, ih htail⟩
        intro p hp
        rcases mem_insMapBy ltb t k v p hp with h | h
        · subst h
          exact htotal (by simpa using hlt) heq
        · exact hhead p h

theorem pairwise_insMapKeepBy {K V : Type} [DecidableEq K] (ltb : K → K → Bool)
    (htrans : ∀ {a b c : K}, ltb a b = true → ltb b c = true → ltb a c = true)
    (htotal : ∀ {a b : K}, ltb a b = false → a ≠ b → ltb b a = true)
    (l : List (K × V)) (k : K) (v : V)
    (hs : l.Pairwise (fun p q => ltb p.1 q.1 = true)) :
    (insMapKeepBy ltb l k v).Pairwise (fun p q => ltb p.1 q.1 = true) := by
  unfold insMapKeepBy
  split
  · exact hs
  · exact pairwise_insMapBy ltb htrans htotal l k v hs

theorem pairwise_updMap {K V : Type} [DecidableEq K] (l : List (K × V)) (k : K)
    (f : V → V) {R : K → K → Prop}
    (hs : l.Pairwise (fun p q => R p.1 q.1)) :
    (updMap l k f).Pairwise (fun p q => R p.1 q.1) := by
  induction l with
  | nil => simp [updMap]
  | cons q t ih =>
    obtain ⟨k1, v1⟩ := q
    rcases List.pairwise_cons.mp hs with ⟨hhead, htail⟩
    by_cases h1 : k1 = k
    · simp only [updMap, if_pos h1]
      exact List.pairwise_cons.mpr ⟨hhead, htail⟩
    · simp only [updMap, if_neg h1]
      refine List.pairwise_cons.mpr ⟨?_, ih htail⟩
      intro p hp
      rcases mem_updMap t k f p hp with h | ⟨q, hq, hpq⟩
      · exact hhead p h
      · rw [hpq]
        exact hhead q hq

/-- Specialization of `insMapBy` to `std::map<std::string, V>`. -/
def insMapS {V : Type} (l : List (String × V)) (k : String) (v : V) : List (String × V) :=
  insMapBy strLtB l k v

/-- Specialization of `insMapKeepBy` to `std::map<std::string, V>`. -/
def insMapKeepS {V : Type} (l : List (String × V)) (k : String) (v : V) : List (String × V) :=
  insMapKeepBy strLtB l k v

/-- Specialization of `insMapBy` to `std::map<int, V>`. -/
def insMapI {V : Type} (l : List (Int × V)) (k : Int) (v : V) : List (Int × V) :=
  insMapBy intLtB l k v

/-- Split a character list at a delimiter, keeping empty segments
(the raw segmentation underlying repeated `std::getline(ss, token, d)`). -/
def splitCh (d : Char) : List Char → List (List Char)
  | [] => [[]]
  | c :: t =>
    if c = d then [] :: splitCh d t
    else
      match splitCh d t with
      | [] => [[c]]
      | h :: r => (c :: h) :: r

theorem splitCh_ne_nil (d : Char) (l : List Char) : splitCh d l ≠ [] := by
  cases l with
  | nil => simp [splitCh]
  | cons c t =>
    simp only [splitCh]
    split
    · simp
    · split
      · simp
      · simp

/-- Tokens produced by a `while (std::getline(ss, token, d))` loop: like
`splitCh`, except that a final empty segment is never produced because the
last `getline` call fails at end of input. -/
def cppTokens (d : Char) (l : List Char) : List (List Char) :=
  let ts := splitCh d l
  match ts.getLast? with
  | some [] => ts.dropLast
  | _ => ts

/-- Comma tokens of one CSV line, as `while (std::getline(ss, token, ','))`
produces them. -/
def splitCSV (s : String) : List String :=
  (cppTokens ',' s.data).map (fun l => ⟨l⟩)

/-- Lines of a stream, as a `while (std::getline(is, line))` loop produces
them. -/
def splitLines (s : String) : List String :=
  (cppTokens '\n' s.data).map (fun l => ⟨l⟩)

/-- Numeric value of a list of decimal digit characters. -/
def natOfDigits (l : List Char) : Nat :=
  l.foldl (fun a c => a * 10 + (c.toNat - 48)) 0

/-- Characters treated as whitespace by `std::stoi` / `std::stod`. -/
def isSpaceCh (c : Char) : Bool :=
  c = ' ' || c = '\t' || c = '\n' || c = '\x0b' || c = '\x0c' || c = '\r'

/-- Model of `std::stoi` on decimal input: skip leading whitespace, optional
sign, then a nonempty run of digits; trailing characters are ignored; `none`
models the `std::invalid_argument` throw when no digits are found. -/
def stoi? (s : String) : Option Int :=
  let l := s.data.dropWhile (fun c => isSpaceCh c)
  let sgn : Int := match l with
    | '-' :: _ => -1
    | _ => 1
  let l2 := match l with
    | '-' :: t => t
    | '+' :: t => t
    | t => t
  let ds := l2.takeWhile (fun c => c.isDigit)
  if ds.isEmpty then none else some (sgn * natOfDigits ds)

/-- Conversion of an `int` value to `unsigned int` (modular, 2^32). -/
def uintOfInt (i : Int) : Nat := (i % 4294967296).toNat

/-- Model of storing a `std::stoi` result into an `unsigned int`. -/
def stoiU? (s : String) : Option Nat := (stoi? s).map uintOfInt

/-- Model of `std::stod` on plain decimal input: skip leading whitespace,
optional sign, digits with an optional fractional part and an optional
decimal exponent; trailing characters are ignored; `none` models the
`std::invalid_argument` throw when no digits are found. The exact rational
value sign · (ipart.fpart) · 10^exponent is assembled as a single `mkRat`
fraction. -/
def stod? (s : String) : Option Rat :=
  let l := s.data.dropWhile (fun c => isSpaceCh c)
  let sgnI : Int := match l with
    | '-' :: _ => -1
    | _ => 1
  let l1 := match l with
    | '-' :: t => t
    | '+' :: t => t
    | t => t
  let ip := l1.takeWhile (fun c => c.isDigit)
  let r1 := l1.dropWhile (fun c => c.isDigit)
  let fp := match r1 with
    | '.' :: t => t.takeWhile (fun c => c.isDigit)
    | _ => []
  let r2 := match r1 with
    | '.' :: t => t.dropWhile (fun c => c.isDigit)
    | _ => r1
  if ip.isEmpty ∧ fp.isEmpty then none
  else
    let mant : Int := (natOfDigits ip * 10 ^ fp.length + natOfDigits fp : Nat)
    let ex : Int := match r2 with
      | 'e' :: t => (stoi? ⟨t⟩).getD 0
      | 'E' :: t => (stoi? ⟨t⟩).getD 0
      | _ => 0
    if 0 ≤ ex then
      some (mkRat (sgnI * mant * 10 ^ ex.toNat) (10 ^ fp.length))
    else
      some (mkRat (sgnI * mant) (10 ^ fp.length * 10 ^ (-ex).toNat))

/-- Decimal digits of a natural number, most significant first (fuelled so
that the recursion is structural; the fuel `n + 1` always suffices). -/
def natDigitsAux : Nat → Nat → List Char
  | 0, _ => []
  | fuel + 1, n =>
    if n < 10 then [Char.ofNat (48 + n)]
    else natDigitsAux fuel (n / 10) ++ [Char.ofNat (48 + n % 10)]

/-- Decimal digits of a natural number (most significant first). -/
def natDigits (n : Nat) : List Char := natDigitsAux (n + 1) n

/-- Decimal rendering of an integer, modelling `std::to_string(int)`. -/
def intToStr (i : Int) : String :=
  if i < 0 then ⟨'-' :: natDigits (-i).toNat⟩ else ⟨natDigits i.toNat⟩

/-- Left-pad a natural's decimal digits with zeros to six places. -/
def padZeros6 (n : Nat) : String :=
  let ds := natDigits n
  ⟨List.replicate (6 - ds.length) '0' ++ ds⟩

/-- Model of `std::to_string(double)`: fixed notation with six digits after
the decimal point (rounding mode simplified to round-half-up on the exact
rational value). The scaled magnitude ⌊|q|·10⁶ + ½⌋ is computed on the
numerator and denominator directly as (2·|num|·10⁶ + den) / (2·den). -/
def toStringDouble (q : Rat) : String :=
  let sgn : String := if q.num < 0 then "-" else ""
  let n : Nat := (q.num.natAbs * 1000000 * 2 + q.den) / (2 * q.den)
  sgn ++ ⟨natDigits (n / 1000000)⟩ ++ "." ++ padZeros6 (n % 1000000)

/-- Right-align a string in a field of the given width by left-padding with
spaces, modelling `os << std::right << std::setw(w) << s`. -/
def padLeft (w : Nat) (s : String) : String :=
  ⟨List.replicate (w - s.length) ' ' ++ s.data⟩

/-!
Data model: `Measure` (src/measure.cpp, src/measure.h).
`std::map<int, double> values` is the sorted association list `values`.
-/

structure Measure where
  codename : String
  label : String
  values : List (Int × Rat)
deriving DecidableEq

/-- Constructor `Measure::Measure(std::string codename, const std::string &label)`:
the codename is lowercased, the label stored as given. -/
def Measure.make (codename : String) (label : String) : Measure :=
  { codename := toLowerStr codename, label := label, values := [] }

/-- Default constructor `Measure::Measure()`. -/
def Measure.mkEmpty : Measure := { codename := "", label := "", values := [] }

/-- Accessor `Measure::getCodename`. -/
def Measure.getCodename (m : Measure) : String := m.codename

/-- Accessor `Measure::getLabel`. -/
def Measure.getLabel (m : Measure) : String := m.label

/-- Mutator `Measure::setLabel`. -/
def Measure.setLabel (m : Measure) (newlabel : String) : Measure :=
  { m with label := newlabel }

/-- Lookup `Measure::getValue(int year)`; throws `std::out_of_range` when the
year is absent. -/
def Measure.getValue (m : Measure) (year : Int) : Except String Rat :=
  match lookupMap m.values year with
  | none => .error ("No value found for year " ++ intToStr year)
  | some v => .ok v

/-- Mutator `Measure::setValue(int year, double value)`: insert or overwrite. -/
def Measure.setValue (m : Measure) (year : Int) (value : Rat) : Measure :=
  { m with values := insMapI m.values year value }

/-- Accessor `Measure::size`. -/
def Measure.msize (m : Measure) : Nat := m.values.length

/-- Accessor `Measure::getYears` (the `values` container, in key order). -/
def Measure.getYears (m : Measure) : List (Int × Rat) := m.values

/-- Derived statistic `Measure::getDifference`: value at the last year minus
value at the first year, or 0 when fewer than two values exist. -/
def Measure.getDifference (m : Measure) : Rat :=
  if m.values.isEmpty ∨ m.values.length = 1 then 0
  else ((m.values.getLast?).getD (0, 0)).2 - ((m.values.head?).getD (0, 0)).2

/-- Derived statistic `Measure::getDifferenceAsPercentage`: the difference as
a percentage of the first year's value, or 0 when empty or the first value
is 0. -/
def Measure.getDifferenceAsPercentage (m : Measure) : Rat :=
  if m.values.isEmpty then 0
  else
    let firstYear := ((m.values.head?).getD (0, 0)).2
    let lastYear := ((m.values.getLast?).getD (0, 0)).2
    if firstYear = 0 then 0
    else ((lastYear - firstYear) / firstYear) * 100

/-- Derived statistic `Measure::getAverage`: mean of all values, or 0 when
empty. -/
def Measure.getAverage (m : Measure) : Rat :=
  if m.values.isEmpty then 0
  else (m.values.foldl (fun s p => s + p.2) 0) / (m.values.length : Rat)

/-- Merge primitive `Measure::combine(const Measure& other)`: every
(year, value) entry of `other` overwrites the corresponding entry of `self`;
codename and label of `self` are untouched. -/
def Measure.combine (self : Measure) (other : Measure) : Measure :=
  { self with values := other.values.foldl (fun vs p => insMapI vs p.1 p.2) self.values }

/-!
Data model: `Area` (src/area.cpp, src/area.h).
-/

structure Area where
  areaAuthCode : String
  names : List (String × String)
  measures : List (String × Measure)
deriving DecidableEq

/-- Constructor `Area::Area(const std::string& localAuthorityCode)`. -/
def Area.make (localAuthorityCode : String) : Area :=
  { areaAuthCode := localAuthorityCode, names := [], measures := [] }

/-- Default constructor `Area::Area()`. -/
def Area.mkEmpty : Area := { areaAuthCode := "", names := [], measures := [] }

/-- Accessor `Area::getLocalAuthorityCode`. -/
def Area.getLocalAuthorityCode (a : Area) : String := a.areaAuthCode

/-- Lookup `Area::getName(const std::string& lang)`: the key is lowercased
before the lookup; throws `std::out_of_range` with "Language not found" when
absent. -/
def Area.getName (a : Area) (lang : String) : Except String String :=
  let langLower := toLowerStr lang
  match lookupMap a.names langLower with
  | none => .error "Language not found"
  | some n => .ok n

/-- Mutator `Area::setName`: the language code is lowercased, the name stored
unconditionally (overwrite). -/
def Area.setName (a : Area) (lang : String) (name : String) : Area :=
  { a with names := insMapS a.names (toLowerStr lang) name }

/-- Lookup `Area::getMeasure(const std::string &key)`. The source computes a
lowercased copy of the key but then performs `measures.find(key)` with the
ORIGINAL key; `_keyLower` mirrors that dead computation. Throws
`std::out_of_range` with "No measure found matching <key>" when absent. -/
def Area.getMeasure (a : Area) (key : String) : Except String Measure :=
  let _keyLower := toLowerStr key
  match lookupMap a.measures key with
  | none => .error ("No measure found matching " ++ key)
  | some m => .ok m

/-- Mutator `Area::setMeasure(code, measure)`: the code is lowercased; when a
measure already exists under the lowercased code, `combine` merges the new
one into it in place; otherwise the new measure is inserted. -/
def Area.setMeasure (a : Area) (code : String) (measure : Measure) : Area :=
  let codeLower := toLowerStr code
  match lookupMap a.measures codeLower with
  | some _ => { a with measures := updMap a.measures codeLower (fun ex => ex.combine measure) }
  | none => { a with measures := insMapS a.measures codeLower measure }

/-- Accessor `Area::size` (number of measures). -/
def Area.asize (a : Area) : Nat := a.measures.length

/-- Accessor `Area::getMeasures` (the measures container, in key order). -/
def Area.getMeasures (a : Area) : List (String × Measure) := a.measures

/-!
Data model: `Areas` (src/areas.cpp, src/areas.h).
The header `areas.h` is not part of the sources; per the specification
(§3, AreaCollection) the container is a mapping from authority code to
Area with unique keys and key-sorted iteration, i.e. a
`std::map<std::string, Area>`.
-/

structure Areas where
  areas : List (String × Area)
deriving DecidableEq

/-- Constructor `Areas::Areas()`. -/
def Areas.make : Areas := { areas := [] }

/-- Mutator `Areas::setArea(localAuthorityCode, area)`: when an Area exists
for the code, the existing Area is assigned the new Area wholesale
(`existingArea = area`); otherwise it is inserted (`emplace`). -/
def Areas.setArea (as : Areas) (localAuthorityCode : String) (area : Area) : Areas :=
  match lookupMap as.areas localAuthorityCode with
  | some _ => { areas := updMap as.areas localAuthorityCode (fun _ => area) }
  | none => { areas := insMapKeepS as.areas localAuthorityCode area }

/-- Lookup `Areas::getArea`: throws `std::out_of_range` with "Area not found"
when absent. -/
def Areas.getArea (as : Areas) (localAuthorityCode : String) : Except String Area :=
  match lookupMap as.areas localAuthorityCode with
  | none => .error "Area not found"
  | some a => .ok a

/-- Accessor `Areas::size`. -/
def Areas.size (as : Areas) : Nat := as.areas.length

/-- Mutator `Areas::insertArea(area)`: `areas.insert({code, area})`, keyed by
the Area's own authority code; `std::map::insert` does not overwrite an
existing entry. -/
def Areas.insertArea (as : Areas) (area : Area) : Areas :=
  { areas := insMapKeepS as.areas area.getLocalAuthorityCode area }

/-!
JSON values, modelling the relevant behavior of the bundled nlohmann/json
library (`lib_json.hpp`): a default-constructed value is `null`; `operator[]`
on `null` turns it into an object; object entries are kept sorted by key
(the library stores objects in a `std::map`).
-/

inductive Json where
  | null
  | jbool (b : Bool)
  | num (q : Rat)
  | str (s : String)
  | arr (elems : List Json)
  | obj (entries : List (String × Json))

/-- Model of `j[key] = v` on a nlohmann json value: `null` becomes a
one-entry object, an object is updated in sorted key order. (On other value
types the library throws; that case is unreachable in the embedded code and
is modelled as starting a fresh object.) -/
def jset (j : Json) (k : String) (v : Json) : Json :=
  match j with
  | Json.obj es => Json.obj (insMapS es k v)
  | _ => Json.obj [(k, v)]

/-- Model of reading `j[key]` from a json value without keeping the written
`null` slot: a missing key or a non-object yields `null`. -/
def jLookup (j : Json) (k : String) : Json :=
  match j with
  | Json.obj es => (lookupMap es k).getD Json.null
  | _ => Json.null

/-- Model of iterating `j.items()` values: empty for `null`, the elements for
an array, the entry values for an object, the value itself otherwise. -/
def jItems (j : Json) : List Json :=
  match j with
  | Json.null => []
  | Json.arr es => es
  | Json.obj es => es.map (fun p => p.2)
  | other => [other]

/-- Test `j.is_null()`. -/
def Json.isNull : Json → Bool
  | Json.null => true
  | _ => false

/-- Test `j.is_number()`, extracting the numeric payload. -/
def Json.asNum? : Json → Option Rat
  | Json.num q => some q
  | _ => none

/-- Implicit conversion of a json value to `std::string`: only a string
succeeds; anything else throws `type_error.302`. -/
def Json.asStr? : Json → Except String String
  | Json.str s => .ok s
  | _ => .error "type_error.302"

/-- Hexadecimal digit character for values below 16. -/
def hexDigit (n : Nat) : Char :=
  if n < 10 then Char.ofNat (48 + n) else Char.ofNat (87 + (n - 10))

/-- JSON string escaping as `dump()` performs it. -/
def escapeJson (s : String) : String :=
  ⟨s.data.foldr (fun c acc =>
    if c = '"' then '\\' :: '"' :: acc
    else if c = '\\' then '\\' :: '\\' :: acc
    else if c = Char.ofNat 8 then '\\' :: 'b' :: acc
    else if c = Char.ofNat 12 then '\\' :: 'f' :: acc
    else if c = '\n' then '\\' :: 'n' :: acc
    else if c = '\r' then '\\' :: 'r' :: acc
    else if c = '\t' then '\\' :: 't' :: acc
    else if c.toNat < 32 then
      '\\' :: 'u' :: '0' :: '0' :: hexDigit (c.toNat / 16) :: hexDigit (c.toNat % 16) :: acc
    else c :: acc) []⟩

/-- Comma-join of already-rendered fragments. -/
def joinComma : List String → String
  | [] => ""
  | [s] => s
  | s :: t => s ++ "," ++ joinComma t

mutual

/-- Model of nlohmann `dump()` (compact form, no indent). The textual
rendering of numbers is a formatting concern outside the specification and
is supplied as `fmtNum`. -/
def Json.dump (fmtNum : Rat → String) : Json → String
  | Json.null => "null"
  | Json.jbool b => if b then "true" else "false"
  | Json.num q => fmtNum q
  | Json.str s => "\"" ++ escapeJson s ++ "\""
  | Json.arr es => "[" ++ joinComma (dumpList fmtNum es) ++ "]"
  | Json.obj es => "\x7b" ++ joinComma (dumpEntries fmtNum es) ++ "\x7d"

/-- Rendered elements of a json array. -/
def dumpList (fmtNum : Rat → String) : List Json → List String
  | [] => []
  | j :: t => Json.dump fmtNum j :: dumpList fmtNum t

/-- Rendered entries of a json object. -/
def dumpEntries (fmtNum : Rat → String) : List (String × Json) → List String
  | [] => []
  | (k, v) :: t => ("\"" ++ escapeJson k ++ "\":" ++ Json.dump fmtNum v) :: dumpEntries fmtNum t

end

/-- Loop body of `Areas::toJSON` for one (authority code, Area) entry:
builds the per-area json and stores it under the code. `getName("eng")` is
called unguarded, so a missing English name propagates `std::out_of_range`;
the Welsh name is guarded by a try/catch. -/
def toJSONAreaEntry (j : Json) (p : String × Area) : Except String Json := do
  let localAuthorityCode := p.1
  let area := p.2
  let hasCym := match area.getName "cym" with
    | .ok _ => true
    | .error _ => false
  let eng ← area.getName "eng"
  let namesJson := jset Json.null "eng" (Json.str eng)
  let namesJson ← if hasCym then do
      let cym ← area.getName "cym"
      pure (jset namesJson "cym" (Json.str cym))
    else pure namesJson
  let measuresJson := area.getMeasures.foldl (fun mj mp =>
    let measure := mp.2
    let yearsJson := measure.getYears.foldl (fun yj yp =>
      jset yj (intToStr yp.1) (Json.num yp.2)) Json.null
    jset mj measure.getCodename yearsJson) Json.null
  let areaJson := jset (jset Json.null "names" namesJson) "measures" measuresJson
  pure (jset j localAuthorityCode areaJson)

/-- Serialization `Areas::toJSON` up to the final `dump()` call: builds the
nested json value entry by entry. -/
def Areas.toJSONValue (as : Areas) : Except String Json :=
  as.areas.foldlM toJSONAreaEntry Json.null

/-- Serialization `Areas::toJSON`: the built json value, dumped. An empty
collection dumps the untouched default-constructed (null) json value. -/
def Areas.toJSON (as : Areas) (fmtNum : Rat → String) : Except String String :=
  (as.toJSONValue).map (Json.dump fmtNum)

/-!
Ingestion pipeline (src/areas.cpp). The header `datasets.h` (the
`BethYw::SourceColumn` / `BethYw::SourceDataType` enums, the `InputFiles`
catalogue and its `TRAINS` entry) is not among the sources; those parts are
modelled from the specification and passed in as parameters where the code
reads the catalogue.
-/

/-- Modelled from the spec: the column-role enum `BethYw::SourceColumn` of
the missing `datasets.h`, with the roles listed in §6 of the specification;
constructor order gives `MEASURE_CODE` the numeric value 3, which
`populateFromWelshStatsJSON` compares against the literal `3`. -/
inductive SourceColumn where
  | AUTH_CODE
  | AUTH_NAME_ENG
  | AUTH_NAME_CYM
  | MEASURE_CODE
  | MEASURE_NAME
  | SINGLE_MEASURE_CODE
  | SINGLE_MEASURE_NAME
  | YEAR
  | VALUE
deriving DecidableEq

/-- Numeric value of a `SourceColumn` enumerator. -/
def SourceColumn.toIdx : SourceColumn → Nat
  | .AUTH_CODE => 0
  | .AUTH_NAME_ENG => 1
  | .AUTH_NAME_CYM => 2
  | .MEASURE_CODE => 3
  | .MEASURE_NAME => 4
  | .SINGLE_MEASURE_CODE => 5
  | .SINGLE_MEASURE_NAME => 6
  | .YEAR => 7
  | .VALUE => 8

/-- Modelled from the spec: the source-format tag `BethYw::SourceDataType`
of the missing `datasets.h`; the dispatcher recognizes the three parser tags
and fails on anything else (the enum's `None` value). -/
inductive SourceDataType where
  | AuthorityCodeCSV
  | AuthorityByYearCSV
  | WelshStatsJSON
  | NoFormat
deriving DecidableEq

/-- Column-role mapping `BethYw::SourceColumnMapping`
(`std::map<SourceColumn, std::string>`), iterated in enumerator order. -/
def SourceColumnMapping : Type := List (SourceColumn × String)

/-- Modelled from the spec: one entry of the dataset catalogue
`BethYw::InputFiles::DATASETS` of the missing `datasets.h` — the parser tag
and the column mapping, the two fields `populateFromAuthorityByYearCSV`
reads. -/
structure Dataset where
  PARSER : SourceDataType
  COLS : SourceColumnMapping

/-- Model of `std::map::at`: lookup that throws `std::out_of_range` when the
key is absent. -/
def colsAt (cols : SourceColumnMapping) (k : SourceColumn) : Except String String :=
  match lookupMap (cols : List (SourceColumn × String)) k with
  | none => .error "map::at: key not found"
  | some v => .ok v

/-- Row handler of `Areas::populateFromAuthorityCodeCSV`: split on commas,
require at least three columns, apply the area filter, then build the Area
with both names and `insertArea` it. -/
def processAuthorityCodeRow (areasFilter : List String) (as : Areas) (line : String) :
    Except String Areas :=
  let tokens := splitCSV line
  if tokens.length < 3 then .error "Not enough columns in the CSV file."
  else
    let authorityCode := tokens.getD 0 ""
    let authorityNameEng := tokens.getD 1 ""
    let authorityNameCym := tokens.getD 2 ""
    if areasFilter ≠ [] ∧ authorityCode ∉ areasFilter then .ok as
    else
      let area := ((Area.make authorityCode).setName "eng" authorityNameEng).setName
        "cym" authorityNameCym
      .ok (as.insertArea area)

/-- Parser `Areas::populateFromAuthorityCodeCSV`: the first line is the
header and is skipped; each following line is one area row. The column
mapping parameter is unused by the source (fixed positions 0, 1, 2). -/
def Areas.populateFromAuthorityCodeCSV (as : Areas) (lines : List String)
    (_cols : SourceColumnMapping) (areasFilter : List String) : Except String Areas :=
  match lines with
  | [] => .ok as
  | _header :: rest => rest.foldlM (processAuthorityCodeRow areasFilter) as

/-- Catalogue scan of `populateFromAuthorityByYearCSV`: the first dataset
whose parser tag is `AuthorityByYearCSV` and whose `SINGLE_MEASURE_NAME`
column equals the first column value of the supplied mapping provides the
measure code and label; without a match both stay empty. `COLS.at` may
throw. -/
def findMeasureInCatalogue : List Dataset → String → Except String (String × String)
  | [], _ => .ok ("", "")
  | d :: rest, firstVal =>
    if d.PARSER = SourceDataType.AuthorityByYearCSV then do
      let nm ← colsAt d.COLS SourceColumn.SINGLE_MEASURE_NAME
      if nm = firstVal then do
        let c ← colsAt d.COLS SourceColumn.SINGLE_MEASURE_CODE
        pure (c, nm)
      else findMeasureInCatalogue rest firstVal
    else findMeasureInCatalogue rest firstVal

/-- Inner loop of `populateFromAuthorityByYearCSV` over the value tokens of
one row: pair token i with header year i−1 (`years.at` throws when the row is
longer than the header), parse the value with `std::stod`, and keep the pair
unless the year filter is active (both components nonzero) and the year
falls outside the inclusive range. -/
def byYearValuesLoop (years : List Nat) (yearsFilter : Nat × Nat) :
    List String → Nat → Measure → Except String Measure
  | [], _, m => .ok m
  | tok :: restToks, yearIdx, m => do
    let year ← match years.get? yearIdx with
      | some y => Except.ok y
      | none => Except.error "vector::at: index out of range"
    let value ← match stod? tok with
      | some v => Except.ok v
      | none => Except.error "stod: no conversion"
    if yearsFilter.1 ≠ 0 ∧ yearsFilter.2 ≠ 0 ∧ (year < yearsFilter.1 ∨ year > yearsFilter.2) then
      byYearValuesLoop years yearsFilter restToks (yearIdx + 1) m
    else
      byYearValuesLoop years yearsFilter restToks (yearIdx + 1) (m.setValue (year : Int) value)

/-- Row handler of `Areas::populateFromAuthorityByYearCSV`: first token is
the authority code (`tokens.at(0)` throws on an empty row), the area filter
may skip the row, the remaining tokens are year values; finally
`areas.at(code).setMeasure(measureCode, measure)` requires the Area to exist
already. -/
def processByYearRow (years : List Nat) (areasFilter : List String)
    (yearsFilter : Nat × Nat) (measureCode measureLabel : String)
    (as : Areas) (line : String) : Except String Areas := do
  let tokens := splitCSV line
  let localAuthorityCode ← match tokens.head? with
    | some t => Except.ok t
    | none => Except.error "vector::at: index out of range"
  if areasFilter ≠ [] ∧ localAuthorityCode ∉ areasFilter then .ok as
  else do
    let measure ← byYearValuesLoop years yearsFilter tokens.tail 0
      (Measure.make measureCode measureLabel)
    match lookupMap as.areas localAuthorityCode with
    | none => .error "map::at: key not found"
    | some _ =>
      .ok { areas := updMap as.areas localAuthorityCode
              (fun ar => ar.setMeasure measureCode measure) }

/-- Parser `Areas::populateFromAuthorityByYearCSV`: the header line yields
the year columns (first cell skipped, the rest `std::stoi`-parsed into
unsigned ints); the measure code/label come from the dataset catalogue
(matched on the first column-mapping value); each data row adds one measure
to an already-existing Area. -/
def Areas.populateFromAuthorityByYearCSV (as : Areas) (lines : List String)
    (cols : SourceColumnMapping) (catalogue : List Dataset)
    (areasFilter _measuresFilter : List String) (yearsFilter : Nat × Nat) :
    Except String Areas := do
  let header := lines.headD ""
  let rest := lines.tail
  let headerTokens := splitCSV header
  let years ← headerTokens.tail.mapM (fun t =>
    match stoi? t with
    | some i => Except.ok (uintOfInt i)
    | none => Except.error "stoi: no conversion")
  let firstElement := (cols : List (SourceColumn × String)).headD (SourceColumn.AUTH_CODE, "")
  let mc ← findMeasureInCatalogue catalogue firstElement.2
  rest.foldlM (processByYearRow years areasFilter yearsFilter mc.1 mc.2) as

/-- Mapped-data construction of `populateFromWelshStatsJSON`: for every
column-mapping entry, a null field is skipped, a numeric field is stored via
`std::to_string(double)`, and any other field converts to `std::string`
(throwing `type_error.302` unless it is a string). -/
def buildMappedData (cols : SourceColumnMapping) (data : Json) :
    Except String (List (SourceColumn × String)) :=
  (cols : List (SourceColumn × String)).foldlM (fun md col => do
    let field := jLookup data col.2
    if field.isNull then pure md
    else match field.asNum? with
      | some q => pure (insMapKeepBy (fun a b => decide (a.toIdx < b.toIdx)) (updMap md col.1 (fun _ => toStringDouble q)) col.1 (toStringDouble q))
      | none => do
        let s ← field.asStr?
        pure (insMapKeepBy (fun a b => decide (a.toIdx < b.toIdx)) (updMap md col.1 (fun _ => s)) col.1 s)) []

/-- Model of `areas[code]` followed by in-place mutation: `operator[]` on
`std::map` inserts a default-constructed Area when the key is absent, then
the mutation applies to the stored value. -/
def bracketUpd (l : List (String × Area)) (k : String) (f : Area → Area) :
    List (String × Area) :=
  match lookupMap l k with
  | some _ => updMap l k f
  | none => insMapS l k (f Area.mkEmpty)

/-- Record handler of `Areas::populateFromWelshStatsJSON` for one element of
`j["value"]`: build the mapped data, detect single-measure files (no column
with enum value 3), then apply the area filter, the measure filter (on the
lowercased code) and the year filter; an accepted record creates or reuses
the Area (English name only) and merges the one value into its measure. -/
def processWelshRecord (cols : SourceColumnMapping)
    (areasFilter measuresFilter : List String) (yearsFilter : Nat × Nat)
    (trainsCols : SourceColumnMapping) (as : Areas) (data : Json) :
    Except String Areas := do
  let mappedData ← buildMappedData cols data
  let isSingleMeasure := ¬ mappedData.any (fun p => p.1.toIdx = 3)
  let localAuthorityCode := (lookupMap mappedData SourceColumn.AUTH_CODE).getD ""
  let localAuthorityNameEng := (lookupMap mappedData SourceColumn.AUTH_NAME_ENG).getD ""
  if areasFilter ≠ [] ∧ localAuthorityCode ∉ areasFilter then .ok as
  else do
    let codes ← if isSingleMeasure then do
        let c ← colsAt trainsCols SourceColumn.SINGLE_MEASURE_CODE
        let n ← colsAt trainsCols SourceColumn.SINGLE_MEASURE_NAME
        pure (c, n)
      else
        pure ((lookupMap mappedData SourceColumn.MEASURE_CODE).getD "",
          (lookupMap mappedData SourceColumn.MEASURE_NAME).getD "")
    let measureCode := toLowerStr codes.1
    let measureLabel := toLowerStr codes.2
    if measuresFilter ≠ [] ∧ measureCode ∉ measuresFilter then .ok as
    else do
      let yearString := (lookupMap mappedData SourceColumn.YEAR).getD ""
      let year ← match stoi? yearString with
        | some i => Except.ok (uintOfInt i)
        | none => Except.error "stoi: no conversion"
      if (yearsFilter.1 = 0 ∧ yearsFilter.2 = 0) ∨
          (year ≥ yearsFilter.1 ∧ year ≤ yearsFilter.2) then do
        let valueString := (lookupMap mappedData SourceColumn.VALUE).getD ""
        let value ← match stod? valueString with
          | some v => Except.ok v
          | none => Except.error "stod: no conversion"
        let measure := (Measure.make measureCode measureLabel).setValue (year : Int) value
        let area := (Area.make localAuthorityCode).setName "eng" localAuthorityNameEng
        let as2 := as.insertArea area
        .ok { areas := bracketUpd as2.areas localAuthorityCode
                (fun ar => ar.setMeasure measureCode measure) }
      else .ok as

/-- Parser `Areas::populateFromWelshStatsJSON`: iterate the records of
`j["value"]`. The `TRAINS` catalogue entry of the missing `datasets.h`
(used for single-measure files) is passed in as `trainsCols`. -/
def Areas.populateFromWelshStatsJSON (as : Areas) (j : Json)
    (cols : SourceColumnMapping) (areasFilter measuresFilter : List String)
    (yearsFilter : Nat × Nat) (trainsCols : SourceColumnMapping) :
    Except String Areas :=
  (jItems (jLookup j "value")).foldlM
    (processWelshRecord cols areasFilter measuresFilter yearsFilter trainsCols) as

/-- Input stream as the dispatcher observes it: `good` is the stream state
check `!is`, and an empty `text` is what `is.peek() == eof` detects. -/
structure IStream where
  good : Bool
  text : String

/-- Dispatcher `Areas::populate` (filtered overload): stream checks first,
then dispatch on the format tag; an unrecognized tag throws. The JSON text
parser of the external library is passed in as `parseJson`. -/
def Areas.populate (as : Areas) (parseJson : String → Except String Json)
    (st : IStream) (type : SourceDataType) (cols : SourceColumnMapping)
    (catalogue : List Dataset) (trainsCols : SourceColumnMapping)
    (areasFilter measuresFilter : List String) (yearsFilter : Nat × Nat) :
    Except String Areas :=
  if st.good = false then .error "Input stream is not open or not in a valid state"
  else if st.text = "" then .error "Input stream is empty"
  else match type with
  | SourceDataType.AuthorityCodeCSV =>
      as.populateFromAuthorityCodeCSV (splitLines st.text) cols areasFilter
  | SourceDataType.WelshStatsJSON => do
      let j ← parseJson st.text
      as.populateFromWelshStatsJSON j cols areasFilter measuresFilter yearsFilter trainsCols
  | SourceDataType.AuthorityByYearCSV =>
      as.populateFromAuthorityByYearCSV (splitLines st.text) cols catalogue
        areasFilter measuresFilter yearsFilter
  | SourceDataType.NoFormat => .error "Areas::populate: Unexpected data type"

/-- Dispatcher `Areas::populate` (unfiltered overload): same stream checks,
then dispatch with freshly constructed empty filters (`StringFilterSet{}`
and a value-initialized `(0,0)` year tuple). -/
def Areas.populateAll (as : Areas) (parseJson : String → Except String Json)
    (st : IStream) (type : SourceDataType) (cols : SourceColumnMapping)
    (catalogue : List Dataset) (trainsCols : SourceColumnMapping) :
    Except String Areas :=
  if st.good = false then .error "Input stream is not open or not in a valid state"
  else if st.text = "" then .error "Input stream is empty"
  else
    let emptyFilter : List String := []
    let emptyYearFilter : Nat × Nat := (0, 0)
    match type with
    | SourceDataType.AuthorityCodeCSV =>
        as.populateFromAuthorityCodeCSV (splitLines st.text) cols emptyFilter
    | SourceDataType.WelshStatsJSON => do
        let j ← parseJson st.text
        as.populateFromWelshStatsJSON j cols emptyFilter emptyFilter emptyYearFilter trainsCols
    | SourceDataType.AuthorityByYearCSV =>
        as.populateFromAuthorityByYearCSV (splitLines st.text) cols catalogue
          emptyFilter emptyFilter emptyYearFilter
    | SourceDataType.NoFormat => .error "Areas::populate: Unexpected data type"

/-- Exception-semantics wrapper for the filtered `populate`: on a throw the
caller's `Areas` object is the one it had before the call. -/
def Areas.populateRun (as : Areas) (parseJson : String → Except String Json)
    (st : IStream) (type : SourceDataType) (cols : SourceColumnMapping)
    (catalogue : List Dataset) (trainsCols : SourceColumnMapping)
    (areasFilter measuresFilter : List String) (yearsFilter : Nat × Nat) :
    Areas × Option String :=
  match as.populate parseJson st type cols catalogue trainsCols areasFilter
      measuresFilter yearsFilter with
  | .ok as2 => (as2, none)
  | .error e => (as, some e)

/-- Exception-semantics wrapper for the unfiltered `populate`. -/
def Areas.populateAllRun (as : Areas) (parseJson : String → Except String Json)
    (st : IStream) (type : SourceDataType) (cols : SourceColumnMapping)
    (catalogue : List Dataset) (trainsCols : SourceColumnMapping) :
    Areas × Option String :=
  match as.populateAll parseJson st type cols catalogue trainsCols with
  | .ok as2 => (as2, none)
  | .error e => (as, some e)

/-!
Text rendering: `operator<<` for Measure (src/measure.cpp), Area
(src/area.cpp) and Areas (src/areas.cpp). The numeric formatting of `double`
values (`std::fixed`, precision) is outside the specification and is passed
in as `fmtV`.
-/

/-- Renderer `operator<<(std::ostream&, const Measure&)`: a Year/Value table
header, a dashed rule, either the label/code plus `<no data>` or the
year-ordered rows followed by Average, Diff and % rows. -/
def Measure.render (m : Measure) (fmtV : Rat → String) : String :=
  let head := padLeft 6 "Year" ++ "  " ++ padLeft 15 "Value" ++ "\n"
    ++ ⟨List.replicate 23 '-'⟩ ++ "\n"
  if m.values.isEmpty then
    head ++ m.label ++ " (" ++ m.codename ++ ")" ++ "\n" ++ "<no data>" ++ "\n"
  else
    let firstYearValue := ((m.values.head?).getD (0, 0)).2
    let lastYearValue := ((m.values.getLast?).getD (0, 0)).2
    let difference := lastYearValue - firstYearValue
    let percentageDifference := (difference / firstYearValue) * 100
    head
    ++ String.join (m.values.map (fun yp =>
        padLeft 6 (intToStr yp.1) ++ "  " ++ padLeft 15 (fmtV yp.2) ++ "\n"))
    ++ ⟨List.replicate 23 '-'⟩ ++ "\n"
    ++ padLeft 6 "Average" ++ "  " ++ padLeft 15 (fmtV m.getAverage) ++ "\n"
    ++ padLeft 6 "Diff" ++ "  " ++ padLeft 15 (fmtV difference) ++ "\n"
    ++ padLeft 6 "%" ++ "  " ++ padLeft 15 (fmtV percentageDifference) ++ "\n"

/-- Renderer `operator<<(std::ostream&, const Area&)`: "Unnamed" when the
area has no names, the single name when it has one, otherwise the "eng" and
"cym" entries (an area with two or more names but no "eng"/"cym" entry
dereferences `names.find(...)` at end — undefined behavior — modelled as an
empty string); then the authority code line; then `<no measures>` or every
measure via `Measure::render` plus the `std::endl` after each. -/
def Area.render (a : Area) (fmtV : Rat → String) : String :=
  let namesPart :=
    if a.names.isEmpty then "Unnamed" ++ "\n"
    else if a.names.length = 1 then ((a.names.head?).getD ("", "")).2 ++ "\n"
    else ((lookupMap a.names "eng").getD "") ++ " / " ++ ((lookupMap a.names "cym").getD "") ++ "\n"
  let codePart := "Local authority code: " ++ a.areaAuthCode ++ "\n"
  let measuresPart :=
    if a.measures.isEmpty then "<no measures>" ++ "\n"
    else String.join (a.measures.map (fun p => p.2.render fmtV ++ "\n"))
  namesPart ++ codePart ++ measuresPart

/-- One measure's lines inside the Areas renderer: the label/code line, the
year header row with Average, Diff. and % Diff. columns, and the value row
with the three derived statistics. -/
def areasMeasureLines (fmtV : Rat → String) (measure : Measure) : String :=
  measure.getLabel ++ " (" ++ measure.getCodename ++ ")" ++ "\n"
  ++ String.join (measure.getYears.map (fun yp => padLeft 11 (intToStr yp.1)))
  ++ padLeft 11 "Average" ++ padLeft 11 "Diff." ++ padLeft 11 "% Diff.\n"
  ++ String.join (measure.getYears.map (fun yp => padLeft 11 (fmtV yp.2) ++ " "))
  ++ padLeft 11 (fmtV measure.getAverage)
  ++ padLeft 11 (fmtV measure.getDifference)
  ++ padLeft 11 (fmtV measure.getDifferenceAsPercentage) ++ "\n\n"

/-- Per-area block of `operator<<(std::ostream&, const Areas&)`: the Welsh
name is probed with a try/catch, but `getName("eng")` is called unguarded,
so an Area without an English name throws `std::out_of_range`; then either
`<no measures>` or each measure's lines. -/
def renderAreaBlock (fmtV : Rat → String) (areaCode : String) (area : Area) :
    Except String String := do
  let hasCym := match area.getName "cym" with
    | .ok _ => true
    | .error _ => false
  let nameLine ← if hasCym then do
      let eng ← area.getName "eng"
      let cym ← area.getName "cym"
      pure (eng ++ " / " ++ cym ++ " (" ++ areaCode ++ ")" ++ "\n")
    else do
      let eng ← area.getName "eng"
      pure (eng ++ " (" ++ areaCode ++ ")" ++ "\n")
  let measuresPart :=
    if area.getMeasures.isEmpty then "<no measures>" ++ "\n"
    else String.join (area.getMeasures.map (fun mp => areasMeasureLines fmtV mp.2))
  pure (nameLine ++ measuresPart)

/-- Renderer `operator<<(std::ostream&, const Areas&)`: every area's block in
the container's (key-sorted) iteration order. -/
def Areas.render (as : Areas) (fmtV : Rat → String) : Except String String := do
  let blocks ← as.areas.mapM (fun p => renderAreaBlock fmtV p.1 p.2)
  pure (String.join blocks)

/-!
Supporting lemmas about the merge primitive.
-/

theorem lookupMap_eq_none_of_forall {K V : Type} [DecidableEq K]
    (l : List (K × V)) (k : K) (h : ∀ p ∈ l, p.1 ≠ k) : lookupMap l k = none := by
  induction l with
  | nil => rfl
  | cons p t ih =>
    obtain ⟨k1, v1⟩ := p
    have h1 : k1 ≠ k := h (k1, v1) (List.mem_cons_self _ _)
    have h2 : ¬ k = k1 := fun hc => h1 hc.symm
    simp only [lookupMap, if_neg h2]
    exact ih (fun q hq => h q (List.mem_cons_of_mem _ hq))

theorem lookup_foldl_insI (l : List (Int × Rat)) (s : List (Int × Rat)) (k : Int)
    (hl : l.Pairwise (fun p q => intLtB p.1 q.1 = true)) :
    lookupMap (l.foldl (fun vs p => insMapI vs p.1 p.2) s) k =
      match lookupMap l k with
      | some v => some v
      | none => lookupMap s k := by
  induction l generalizing s with
  | nil => simp [lookupMap]
  | cons p t ih =>
    obtain ⟨k1, v1⟩ := p
    rcases List.pairwise_cons.mp hl with ⟨hhead, htail⟩
    simp only [List.foldl_cons]
    rw [ih (insMapI s k1 v1) htail]
    by_cases hk : k = k1
    · subst hk
      have hnone : lookupMap t k = none := by
        refine lookupMap_eq_none_of_forall t k ?_
        intro q hq hc
        have := hhead q hq
        rw [hc] at this
        rw [intLtB_irrefl] at this
        exact Bool.false_ne_true this
      simp [lookupMap, hnone, insMapI, lookupMap_insMapBy]
    · simp only [lookupMap, if_neg hk]
      cases h2 : lookupMap t k with
      | some v => simp
      | none => simp [insMapI, lookupMap_insMapBy, hk]

theorem lookup_combine (A B : Measure) (y : Int)
    (hB : B.values.Pairwise (fun p q => intLtB p.1 q.1 = true)) :
    lookupMap (A.combine B).values y =
      match lookupMap B.values y with
      | some v => some v
      | none => lookupMap A.values y := by
  unfold Measure.combine
  exact lookup_foldl_insI B.values A.values y hB

/-- Claim C2: after `R = combine(A, B)` and then `combine(R, A)` with A
unchanged, a year present in both operands resolves to the value of the
SECOND-applied operand, which is A — so, corrected from the claim's words,
shared years resolve to A's value while years unique to B survive with B's
value. The single equation below captures all cases: the final series maps a
year to A's value when A defines it, else to B's value when B defines it,
else to nothing. -/
theorem claim2_combine_recombine (A B : Measure) (y : Int)
    (hA : A.values.Pairwise (fun p q => intLtB p.1 q.1 = true))
    (hB : B.values.Pairwise (fun p q => intLtB p.1 q.1 = true)) :
    lookupMap ((A.combine B).combine A).values y =
      (match lookupMap A.values y with
      | some v => some v
      | none => lookupMap B.values y) ∧
    lookupMap (A.combine B).values y =
      (match lookupMap B.values y with
      | some v => some v
      | none => lookupMap A.values y) := by
  constructor
  · rw [lookup_combine (A.combine B) A y hA]
    rw [lookup_combine A B y hB]
    cases lookupMap A.values y with
    | none => cases lookupMap B.values y <;> simp
    | some v => simp
  · exact lookup_combine A B y hB

/-- Witness for C2's corrected theorem at concrete series: A has 2000 ↦ 1 and
2001 ↦ 7, B has 2000 ↦ 2 and 2002 ↦ 9; the recombined series keeps A's value
at the shared year 2000 and B's value at B's own year 2002. -/
theorem claim2_combine_recombine_witness :
    lookupMap ((Measure.combine (Measure.combine
        ⟨"pop", "Population", [(2000, 1), (2001, 7)]⟩
        ⟨"pop", "Population", [(2000, 2), (2002, 9)]⟩)
        ⟨"pop", "Population", [(2000, 1), (2001, 7)]⟩).values) 2000 =
      (match lookupMap ([(2000, 1), (2001, 7)] : List (Int × Rat)) 2000 with
      | some v => some v
      | none => lookupMap ([(2000, 2), (2002, 9)] : List (Int × Rat)) 2000) :=
  (claim2_combine_recombine
    ⟨"pop", "Population", [(2000, 1), (2001, 7)]⟩
    ⟨"pop", "Population", [(2000, 2), (2002, 9)]⟩ 2000
    (by simp [intLtB]) (by simp [intLtB])).1

/-- Counterexample to C2 as stated: with A = {2000 ↦ 1} and B = {2000 ↦ 2},
the year 2000 is present in both; after `combine(A,B)` then
`combine(result, A)` it holds B's value according to the claim, but the code
leaves A's value 1, not B's value 2. -/
theorem claim2_counterexample :
    lookupMap ((Measure.combine (Measure.combine
        ⟨"pop", "Population", [(2000, 1)]⟩ ⟨"pop", "Population", [(2000, 2)]⟩)
        ⟨"pop", "Population", [(2000, 1)]⟩).values) 2000 = some 1 ∧
    lookupMap (⟨"pop", "Population", [(2000, 2)]⟩ : Measure).values 2000 = some 2 ∧
    (1 : Rat) ≠ 2 := by
  refine ⟨rfl, rfl, by norm_num⟩

/-- Claim C3: `setArea` overwrites wholesale — after `setArea(code, area)` the
stored Area for `code` is exactly the new Area, whether or not one existed;
`insertArea(area)` is keyed by the Area's own authority code, leaves the
whole collection unchanged when that key is present, and inserts the Area
otherwise. -/
theorem claim3_setArea_insertArea (as : Areas) (code : String) (area : Area) :
    lookupMap (as.setArea code area).areas code = some area ∧
    ((lookupMap as.areas area.getLocalAuthorityCode).isSome → as.insertArea area = as) ∧
    (lookupMap as.areas area.getLocalAuthorityCode = none →
      lookupMap (as.insertArea area).areas area.getLocalAuthorityCode = some area) := by
  refine ⟨?_, ?_, ?_⟩
  · unfold Areas.setArea
    cases h : lookupMap as.areas code with
    | some old =>
      simp only [h]
      rw [lookupMap_updMap]
      simp [h]
    | none =>
      simp only [h]
      unfold insMapKeepS
      rw [lookupMap_insMapKeepBy]
      simp [h]
  · intro h
    unfold Areas.insertArea insMapKeepS insMapKeepBy
    cases h2 : lookupMap as.areas area.getLocalAuthorityCode with
    | some old => rfl
    | none => rw [h2] at h; simp at h
  · intro h
    unfold Areas.insertArea insMapKeepS
    rw [lookupMap_insMapKeepBy]
    simp [h, lookupMap_insMapBy]

/-- Witness for C3 at concrete inputs: overwriting an existing area with
`setArea` stores the new area; `insertArea` with a present key is a no-op;
`insertArea` into an empty collection stores the area. -/
theorem claim3_setArea_insertArea_witness :
    lookupMap ((Areas.setArea ⟨[("W1", Area.make "W1")]⟩ "W1" (Area.make "XX")).areas) "W1" =
      some (Area.make "XX") ∧
    Areas.insertArea ⟨[("W1", Area.make "W1")]⟩ (Area.make "W1") = ⟨[("W1", Area.make "W1")]⟩ ∧
    lookupMap ((Areas.insertArea ⟨[]⟩ (Area.make "W2")).areas) "W2" = some (Area.make "W2") :=
  ⟨(claim3_setArea_insertArea ⟨[("W1", Area.make "W1")]⟩ "W1" (Area.make "XX")).1,
    (claim3_setArea_insertArea ⟨[("W1", Area.make "W1")]⟩ "W1" (Area.make "W1")).2.1 (by decide),
    (claim3_setArea_insertArea ⟨[]⟩ "W2" (Area.make "W2")).2.2 (by decide)⟩

/-- Claim C4: `toJSON` on an empty collection. The source's own documentation
promises `{}`, but the built json value is the untouched default-constructed
(null) value, and nlohmann dumps null as "null" — so the code returns
"null", not "{}", for every numeric formatter. -/
theorem claim4_toJSON_empty (fmtNum : Rat → String) :
    Areas.toJSON ⟨[]⟩ fmtNum = .ok "null" ∧ ("null" : String) ≠ "\x7b\x7d" :=
  ⟨rfl, by decide⟩

/-- Claim C5: `Area::getMeasure` looks up with the ORIGINAL key (the
lowercased copy is computed and discarded), so it succeeds with the stored
series exactly when the unmodified key is literally a stored (lowercase)
key, and otherwise fails reporting the offending key; in particular, after
`setMeasure("Pop", …)` the lookup `getMeasure("Pop")` fails because the
series was stored under "pop". -/
theorem claim5_getMeasure_original_case (a : Area) (code : String) :
    (∀ m, lookupMap a.measures code = some m → a.getMeasure code = .ok m) ∧
    (lookupMap a.measures code = none →
      a.getMeasure code = .error ("No measure found matching " ++ code)) ∧
    ((Area.setMeasure (Area.make "W1") "Pop" (Measure.make "Pop" "Population")).getMeasure
      "Pop" = .error "No measure found matching Pop") := by
  refine ⟨?_, ?_, rfl⟩
  · intro m h
    unfold Area.getMeasure
    rw [h]
  · intro h
    unfold Area.getMeasure
    rw [h]

/-- Witness for C5 at concrete inputs: a stored lowercase key is found as-is,
and a key absent from the map yields the NotFound error. -/
theorem claim5_getMeasure_original_case_witness :
    (Area.getMeasure ⟨"W1", [], [("pop", Measure.make "pop" "Population")]⟩ "pop" =
      .ok (Measure.make "pop" "Population")) ∧
    (Area.getMeasure ⟨"W1", [], []⟩ "Pop" = .error "No measure found matching Pop") :=
  ⟨(claim5_getMeasure_original_case ⟨"W1", [], [("pop", Measure.make "pop" "Population")]⟩
      "pop").1 (Measure.make "pop" "Population") (by decide),
    (claim5_getMeasure_original_case ⟨"W1", [], []⟩ "Pop").2.1 (by decide)⟩

/-- Claim C10: when `setMeasure(code, m)` finds an existing series under the
lowercased code, the stored series becomes `existing.combine(m)` — its
codename and label are exactly the existing series' ones (the incoming
label is discarded), only the year table changes, and every other measure
key is untouched. -/
theorem claim10_setMeasure_merge_frame (a : Area) (code : String) (m m0 : Measure)
    (h : lookupMap a.measures (toLowerStr code) = some m0) :
    lookupMap (a.setMeasure code m).measures (toLowerStr code) = some (m0.combine m) ∧
    (m0.combine m).codename = m0.codename ∧
    (m0.combine m).label = m0.label ∧
    (m0.combine m).values = m.values.foldl (fun vs p => insMapI vs p.1 p.2) m0.values ∧
    ∀ k : String, k ≠ toLowerStr code →
      lookupMap (a.setMeasure code m).measures k = lookupMap a.measures k := by
  refine ⟨?_, rfl, rfl, rfl, ?_⟩
  · unfold Area.setMeasure
    simp only [h]
    rw [lookupMap_updMap]
    simp [h]
  · intro k hk
    unfold Area.setMeasure
    simp only [h]
    rw [lookupMap_updMap]
    simp [hk]

/-- Witness for C10 at a concrete area: merging a second "pop" series with a
different label and an overlapping year keeps the first label and codename
and only rewrites the year table. -/
theorem claim10_setMeasure_merge_frame_witness :
    lookupMap ((Area.setMeasure
        ⟨"W1", [], [("pop", ⟨"pop", "Population", [(2000, 1)]⟩)]⟩
        "Pop" ⟨"pop", "People", [(2000, 5), (2001, 6)]⟩).measures) (toLowerStr "Pop") =
      some (Measure.combine ⟨"pop", "Population", [(2000, 1)]⟩
        ⟨"pop", "People", [(2000, 5), (2001, 6)]⟩) :=
  (claim10_setMeasure_merge_frame
    ⟨"W1", [], [("pop", ⟨"pop", "Population", [(2000, 1)]⟩)]⟩
    "Pop" ⟨"pop", "People", [(2000, 5), (2001, 6)]⟩
    ⟨"pop", "Population", [(2000, 1)]⟩ (by decide)).1

/-!
Claim C7: lowercase-storage invariant. Reachable `Measure` objects are the
ones built by the two constructors and mutated by `setValue`, `setLabel` and
`combine`; reachable `Area` mutations are `setName` and `setMeasure`.
-/

inductive MeasureExpr where
  | ctor (codename label : String)
  | dflt
  | setValueE (m : MeasureExpr) (year : Int) (value : Rat)
  | setLabelE (m : MeasureExpr) (newlabel : String)
  | combineE (m other : MeasureExpr)

/-- Evaluate a `MeasureExpr` to the `Measure` the corresponding C++
construction sequence produces. -/
def evalMeasure : MeasureExpr → Measure
  | .ctor c l => Measure.make c l
  | .dflt => Measure.mkEmpty
  | .setValueE m y v => (evalMeasure m).setValue y v
  | .setLabelE m l => (evalMeasure m).setLabel l
  | .combineE m o => (evalMeasure m).combine (evalMeasure o)

theorem evalMeasure_codename_lower (e : MeasureExpr) : LowerStr (evalMeasure e).codename := by
  induction e with
  | ctor c l => exact lowerStr_toLowerStr c
  | dflt => rfl
  | setValueE m y v ih => exact ih
  | setLabelE m l ih => exact ih
  | combineE m o ih _ => exact ih

inductive AreaOp where
  | setNameOp (lang name : String)
  | setMeasureOp (code : String) (m : MeasureExpr)

/-- Apply one reachable `Area` mutation. -/
def applyAreaOp (a : Area) : AreaOp → Area
  | .setNameOp lang name => a.setName lang name
  | .setMeasureOp code m => a.setMeasure code (evalMeasure m)

/-- Apply a sequence of reachable `Area` mutations in order. -/
def applyAreaOps (a : Area) : List AreaOp → Area
  | [] => a
  | op :: rest => applyAreaOps (applyAreaOp a op) rest

/-- Invariant of §3: every language key, every measure key and every stored
measure codename of an Area is entirely lowercase. -/
def AreaLowerInv (a : Area) : Prop :=
  (∀ p ∈ a.names, LowerStr p.1) ∧ (∀ p ∈ a.measures, LowerStr p.1 ∧ LowerStr p.2.codename)

theorem areaLowerInv_setName (a : Area) (lang name : String) (h : AreaLowerInv a) :
    AreaLowerInv (a.setName lang name) := by
  obtain ⟨hn, hm⟩ := h
  refine ⟨?_, hm⟩
  intro p hp
  unfold Area.setName insMapS at hp
  rcases mem_insMapBy strLtB a.names (toLowerStr lang) name p hp with h1 | h1
  · rw [h1]
    exact lowerStr_toLowerStr lang
  · exact hn p h1

theorem areaLowerInv_setMeasure (a : Area) (code : String) (m : Measure)
    (hm : LowerStr m.codename) (h : AreaLowerInv a) :
    AreaLowerInv (a.setMeasure code m) := by
  obtain ⟨hn, hms⟩ := h
  unfold Area.setMeasure
  cases hl : lookupMap a.measures (toLowerStr code) with
  | some m0 =>
    simp only [hl]
    refine ⟨hn, ?_⟩
    intro p hp
    rcases mem_updMap a.measures (toLowerStr code) (fun ex => ex.combine m) p hp with h1 | ⟨q, hq, hpq⟩
    · exact hms p h1
    · rw [hpq]
      exact ⟨(hms q hq).1, (hms q hq).2⟩
  | none =>
    simp only [hl]
    refine ⟨hn, ?_⟩
    intro p hp
    unfold insMapS at hp
    rcases mem_insMapBy strLtB a.measures (toLowerStr code) m p hp with h1 | h1
    · rw [h1]
      exact ⟨lowerStr_toLowerStr code, hm⟩
    · exact hms p h1

theorem areaLowerInv_applyAreaOps (ops : List AreaOp) (a : Area) (h : AreaLowerInv a) :
    AreaLowerInv (applyAreaOps a ops) := by
  induction ops generalizing a with
  | nil => exact h
  | cons op rest ih =>
    refine ih (applyAreaOp a op) ?_
    cases op with
    | setNameOp lang name => exact areaLowerInv_setName a lang name h
    | setMeasureOp code m =>
      exact areaLowerInv_setMeasure a code (evalMeasure m) (evalMeasure_codename_lower m) h

/-- Claim C7: after any sequence of `setName`, `setMeasure` and `Measure`
constructions (with arbitrary casing of all inputs) starting from a freshly
constructed Area, every language key, every measure key and every stored
measure codename is entirely lowercase. -/
theorem claim7_lowercase_invariant (ops : List AreaOp) (authCode : String) :
    AreaLowerInv (applyAreaOps (Area.make authCode) ops) := by
  refine areaLowerInv_applyAreaOps ops (Area.make authCode) ?_
  exact ⟨fun p hp => absurd hp (List.not_mem_nil p), fun p hp => absurd hp (List.not_mem_nil p)⟩

/-- Claim C6: both populate overloads check the stream and the format tag
before touching the collection. A bad stream yields the stream-state error,
a good but empty stream yields the empty-stream error, a good nonempty
stream with an unrecognized tag yields the unsupported-type error — and in
every rejection case the run wrapper returns the caller's collection
unchanged. -/
theorem claim6_populate_rejects_before_mutation (as : Areas)
    (parseJson : String → Except String Json) (st : IStream) (type : SourceDataType)
    (cols : SourceColumnMapping) (catalogue : List Dataset)
    (trainsCols : SourceColumnMapping) (areasFilter measuresFilter : List String)
    (yearsFilter : Nat × Nat) :
    (st.good = false →
      as.populateRun parseJson st type cols catalogue trainsCols areasFilter
          measuresFilter yearsFilter =
        (as, some "Input stream is not open or not in a valid state") ∧
      as.populateAllRun parseJson st type cols catalogue trainsCols =
        (as, some "Input stream is not open or not in a valid state")) ∧
    (st.good = true → st.text = "" →
      as.populateRun parseJson st type cols catalogue trainsCols areasFilter
          measuresFilter yearsFilter = (as, some "Input stream is empty") ∧
      as.populateAllRun parseJson st type cols catalogue trainsCols =
        (as, some "Input stream is empty")) ∧
    (st.good = true → st.text ≠ "" → type = SourceDataType.NoFormat →
      as.populateRun parseJson st type cols catalogue trainsCols areasFilter
          measuresFilter yearsFilter =
        (as, some "Areas::populate: Unexpected data type") ∧
      as.populateAllRun parseJson st type cols catalogue trainsCols =
        (as, some "Areas::populate: Unexpected data type")) := by
  refine ⟨?_, ?_, ?_⟩
  · intro hbad
    unfold Areas.populateRun Areas.populateAllRun Areas.populate Areas.populateAll
    rw [hbad]
    simp
  · intro hgood hempty
    unfold Areas.populateRun Areas.populateAllRun Areas.populate Areas.populateAll
    rw [hgood, hempty]
    simp
  · intro hgood hne htype
    unfold Areas.populateRun Areas.populateAllRun Areas.populate Areas.populateAll
    rw [hgood, htype]
    simp [hne]

/-- Witness for C6 at concrete inputs: a bad stream, an empty stream and an
unrecognized format tag each reject with the right message and leave the
collection as it was. -/
theorem claim6_populate_rejects_before_mutation_witness :
    (Areas.populateRun ⟨[("W1", Area.make "W1")]⟩ (fun _ => .ok Json.null)
        ⟨false, "x"⟩ SourceDataType.AuthorityCodeCSV [] [] [] [] [] (0, 0) =
      (⟨[("W1", Area.make "W1")]⟩, some "Input stream is not open or not in a valid state")) ∧
    (Areas.populateRun ⟨[("W1", Area.make "W1")]⟩ (fun _ => .ok Json.null)
        ⟨true, ""⟩ SourceDataType.AuthorityCodeCSV [] [] [] [] [] (0, 0) =
      (⟨[("W1", Area.make "W1")]⟩, some "Input stream is empty")) ∧
    (Areas.populateAllRun ⟨[("W1", Area.make "W1")]⟩ (fun _ => .ok Json.null)
        ⟨true, "x"⟩ SourceDataType.NoFormat [] [] [] =
      (⟨[("W1", Area.make "W1")]⟩, some "Areas::populate: Unexpected data type")) :=
  ⟨((claim6_populate_rejects_before_mutation ⟨[("W1", Area.make "W1")]⟩
      (fun _ => .ok Json.null) ⟨false, "x"⟩ SourceDataType.AuthorityCodeCSV
      [] [] [] [] [] (0, 0)).1 rfl).1,
    ((claim6_populate_rejects_before_mutation ⟨[("W1", Area.make "W1")]⟩
      (fun _ => .ok Json.null) ⟨true, ""⟩ SourceDataType.AuthorityCodeCSV
      [] [] [] [] [] (0, 0)).2.1 rfl rfl).1,
    ((claim6_populate_rejects_before_mutation ⟨[("W1", Area.make "W1")]⟩
      (fun _ => .ok Json.null) ⟨true, "x"⟩ SourceDataType.NoFormat
      [] [] [] [] [] (0, 0)).2.2 rfl (by decide) rfl).2⟩

/-!
Claim C1: year-filter semantics of the two value-bearing parsers.
-/

instance exceptDecEq {e a : Type} [DecidableEq e] [DecidableEq a] : DecidableEq (Except e a) :=
  fun x y =>
    match x, y with
    | .ok v, .ok w =>
      if h : v = w then isTrue (by rw [h]) else isFalse (by intro hc; cases hc; exact h rfl)
    | .ok _, .error _ => isFalse (by intro hc; cases hc)
    | .error _, .ok _ => isFalse (by intro hc; cases hc)
    | .error v, .error w =>
      if h : v = w then isTrue (by rw [h]) else isFalse (by intro hc; cases hc; exact h rfl)

/-- Column mapping of a multi-measure WelshStatsJSON dataset used to
exercise the JSON parser. -/
def colsJ1 : SourceColumnMapping :=
  [(SourceColumn.AUTH_CODE, "c"), (SourceColumn.AUTH_NAME_ENG, "n"),
   (SourceColumn.MEASURE_CODE, "m"), (SourceColumn.MEASURE_NAME, "l"),
   (SourceColumn.YEAR, "y"), (SourceColumn.VALUE, "v")]

/-- One WelshStatsJSON record for area W1, measure POP, with the given year
and value strings. -/
def recJ1 (ys vs : String) : Json :=
  Json.obj [("c", Json.str "W1"), ("l", Json.str "Population"),
    ("m", Json.str "POP"), ("n", Json.str "Powys"),
    ("v", Json.str vs), ("y", Json.str ys)]

/-- Dataset catalogue entry matching `colsC1` for the by-year CSV parser. -/
def catC1 : List Dataset :=
  [⟨SourceDataType.AuthorityByYearCSV,
    [(SourceColumn.SINGLE_MEASURE_CODE, "pop"),
     (SourceColumn.SINGLE_MEASURE_NAME, "Population")]⟩]

/-- Column mapping of the by-year CSV dataset. -/
def colsC1 : SourceColumnMapping := [(SourceColumn.SINGLE_MEASURE_NAME, "Population")]

/-- A by-year CSV file with one area row holding values at 2009..2013
(the year series of the specification's own example). -/
def linesC1 : List String := ["AuthorityCode,2009,2010,2011,2012,2013", "W1,1,2,3,4,5"]

/-- A WelshStatsJSON document with one record per year 2009..2013 for the
same series. -/
def jdocC1 : Json := Json.obj [("value", Json.arr
  [recJ1 "2009" "1", recJ1 "2010" "2", recJ1 "2011" "3", recJ1 "2012" "4", recJ1 "2013" "5"])]

/-- Claim C1 (corrected): year-filter semantics per parser. In
`populateFromWelshStatsJSON` a record is imported iff the filter is `(0,0)`
or the year lies in the inclusive range — the claim holds there. In
`populateFromAuthorityByYearCSV` the filter applies only when BOTH
components are nonzero; a pair with exactly one zero component imports all
years. The first two conjuncts state the decision for arbitrary filters and
years; the remaining conjuncts run both parsers end to end on the
specification's example series 2009..2013 with the range `(2010,2012)`,
with the half-zero pair `(2010,0)` and with `(0,0)`. -/
theorem claim1_year_filter_semantics :
    (∀ (f : Nat × Nat) (y : Nat) (v : Rat) (tok : String) (m : Measure),
      stod? tok = some v →
      byYearValuesLoop [y] f [tok] 0 m =
        .ok (if f.1 ≠ 0 ∧ f.2 ≠ 0 ∧ (y < f.1 ∨ y > f.2) then m
          else m.setValue (y : Int) v)) ∧
    (∀ (f : Nat × Nat) (ys vs : String) (y : Nat) (v : Rat) (as0 : Areas),
      stoiU? ys = some y → stod? vs = some v →
      processWelshRecord colsJ1 [] [] f [] as0 (recJ1 ys vs) =
        .ok (if (f.1 = 0 ∧ f.2 = 0) ∨ (y ≥ f.1 ∧ y ≤ f.2) then
          { areas := bracketUpd (as0.insertArea ((Area.make "W1").setName "eng" "Powys")).areas
              "W1" (fun ar => ar.setMeasure "pop"
                ((Measure.make "pop" "population").setValue (y : Int) v)) }
        else as0)) ∧
    (Areas.populateFromAuthorityByYearCSV ⟨[("W1", Area.make "W1")]⟩ linesC1 colsC1 catC1
        [] [] (2010, 2012) =
      .ok ⟨[("W1", ⟨"W1", [], [("pop", ⟨"pop", "Population",
        [(2010, 2), (2011, 3), (2012, 4)]⟩)]⟩)]⟩) ∧
    (Areas.populateFromAuthorityByYearCSV ⟨[("W1", Area.make "W1")]⟩ linesC1 colsC1 catC1
        [] [] (2010, 0) =
      .ok ⟨[("W1", ⟨"W1", [], [("pop", ⟨"pop", "Population",
        [(2009, 1), (2010, 2), (2011, 3), (2012, 4), (2013, 5)]⟩)]⟩)]⟩) ∧
    (Areas.populateFromAuthorityByYearCSV ⟨[("W1", Area.make "W1")]⟩ linesC1 colsC1 catC1
        [] [] (0, 0) =
      .ok ⟨[("W1", ⟨"W1", [], [("pop", ⟨"pop", "Population",
        [(2009, 1), (2010, 2), (2011, 3), (2012, 4), (2013, 5)]⟩)]⟩)]⟩) ∧
    (Areas.populateFromWelshStatsJSON ⟨[]⟩ jdocC1 colsJ1 [] [] (2010, 2012) [] =
      .ok ⟨[("W1", ⟨"W1", [("eng", "Powys")], [("pop", ⟨"pop", "population",
        [(2010, 2), (2011, 3), (2012, 4)]⟩)]⟩)]⟩) ∧
    (Areas.populateFromWelshStatsJSON ⟨[]⟩ jdocC1 colsJ1 [] [] (2010, 0) [] = .ok ⟨[]⟩) := by
  refine ⟨?_, ?_, by decide, by decide, by decide, by decide, by decide⟩
  · intro f y v tok m hv
    unfold byYearValuesLoop
    simp only [List.get?, bind, Except.bind]
    rw [hv]
    by_cases hc : f.1 ≠ 0 ∧ f.2 ≠ 0 ∧ (y < f.1 ∨ y > f.2)
    · simp only [if_pos hc]
      rfl
    · simp only [if_neg hc]
      rfl
  · intro f ys vs y v as0 hy hv
    obtain ⟨i, hi, hui⟩ := Option.map_eq_some'.mp hy
    unfold processWelshRecord
    rw [show buildMappedData colsJ1 (recJ1 ys vs) =
        .ok [(SourceColumn.AUTH_CODE, "W1"), (SourceColumn.AUTH_NAME_ENG, "Powys"),
          (SourceColumn.MEASURE_CODE, "POP"), (SourceColumn.MEASURE_NAME, "Population"),
          (SourceColumn.YEAR, ys), (SourceColumn.VALUE, vs)] from rfl]
    simp only [bind, Except.bind]
    simp only [lookupMap, List.any_cons, List.any_nil, SourceColumn.toIdx, Option.getD]
    simp only [reduceCtorEq, if_false, if_neg, ite_false, ite_true, reduceIte]
    rw [hi]
    simp only [pure, Except.pure]
    norm_num
    rw [show toLowerStr "POP" = "pop" from by decide,
        show toLowerStr "Population" = "population" from by decide]
    rw [hui, hv]
    split <;> rfl

/-- Witness for C1's corrected theorem: the by-year loop at filter
(2010, 2012) drops year 2009 and keeps year 2011, and a JSON record for year
2011 with value 7 is imported under the same filter. -/
theorem claim1_year_filter_semantics_witness :
    (byYearValuesLoop [2009] (2010, 2012) ["7"] 0 (Measure.make "pop" "Population") =
      .ok (Measure.make "pop" "Population")) ∧
    (byYearValuesLoop [2011] (2010, 2012) ["7"] 0 (Measure.make "pop" "Population") =
      .ok ((Measure.make "pop" "Population").setValue (2011 : Int) 7)) ∧
    (processWelshRecord colsJ1 [] [] (2010, 2012) [] ⟨[]⟩ (recJ1 "2011" "7") =
      .ok ⟨bracketUpd
          (Areas.insertArea ⟨[]⟩ ((Area.make "W1").setName "eng" "Powys")).areas
          "W1" (fun ar => ar.setMeasure "pop"
            ((Measure.make "pop" "population").setValue ((2011 : Nat) : Int) 7))⟩) := by
  refine ⟨?_, ?_, ?_⟩
  · rw [claim1_year_filter_semantics.1 (2010, 2012) 2009 7 "7"
      (Measure.make "pop" "Population") (by decide)]
    decide
  · rw [claim1_year_filter_semantics.1 (2010, 2012) 2011 7 "7"
      (Measure.make "pop" "Population") (by decide)]
    decide
  · rw [claim1_year_filter_semantics.2.1 (2010, 2012) "2011" "7" 2011 7 ⟨[]⟩
      (by decide) (by decide)]
    decide

/-- Counterexample to C1 as stated: the year filter pair (2010, 0) is not
(0, 0), so by the claim it should act as the inclusive range [2010, 0] and
drop the value at year 2009 in every parser; but
`populateFromAuthorityByYearCSV` only applies the filter when both
components are nonzero and imports the 2009 value. -/
theorem claim1_counterexample :
    Areas.populateFromAuthorityByYearCSV ⟨[("W1", Area.make "W1")]⟩
        ["AuthorityCode,2009", "W1,5"]
        [(SourceColumn.SINGLE_MEASURE_NAME, "Population")]
        [⟨SourceDataType.AuthorityByYearCSV,
          [(SourceColumn.SINGLE_MEASURE_CODE, "pop"),
           (SourceColumn.SINGLE_MEASURE_NAME, "Population")]⟩]
        [] [] (2010, 0) =
      .ok ⟨[("W1", ⟨"W1", [], [("pop", ⟨"pop", "Population", [(2009, 5)]⟩)]⟩)]⟩ ∧
    ((2010, 0) : Nat × Nat) ≠ (0, 0) ∧ ¬(2010 ≤ 2009 ∧ 2009 ≤ 0) := by
  refine ⟨by decide, by decide, by decide⟩

/-!
Claim C8: round-trip from an authority-code CSV through `toJSON`'s json
value. Supporting lemmas about `splitCSV`, `jset`/`jLookup` and the
insert-fold of the CSV parser.
-/

theorem splitCh_no_delim (d : Char) (l : List Char) (h : d ∉ l) : splitCh d l = [l] := by
  induction l with
  | nil => rfl
  | cons c t ih =>
    have hc : ¬ c = d := fun hc => h (hc ▸ List.mem_cons_self _ _)
    have ht : d ∉ t := fun hm => h (List.mem_cons_of_mem _ hm)
    simp only [splitCh, if_neg hc, ih ht]

theorem splitCh_append (d : Char) (l1 l2 : List Char) (h : d ∉ l1) :
    splitCh d (l1 ++ d :: l2) = l1 :: splitCh d l2 := by
  induction l1 with
  | nil => simp [splitCh]
  | cons c t ih =>
    have hc : ¬ c = d := fun hc => h (hc ▸ List.mem_cons_self _ _)
    have ht : d ∉ t := fun hm => h (List.mem_cons_of_mem _ hm)
    simp only [List.cons_append, splitCh, if_neg hc]
    rw [show t.append (d :: l2) = t ++ d :: l2 from rfl, ih ht]

theorem cppTokens_keep (d : Char) (l : List Char) (x : List Char)
    (hx : (splitCh d l).getLast? = some x) (hne : x ≠ []) :
    cppTokens d l = splitCh d l := by
  unfold cppTokens
  simp only
  rw [hx]
  cases x with
  | nil => exact absurd rfl hne
  | cons a b => rfl

theorem splitCSV_three (c e w : String) (hc : ',' ∉ c.data) (he : ',' ∉ e.data)
    (hw : ',' ∉ w.data) (hwne : w ≠ "") :
    splitCSV (c ++ "," ++ e ++ "," ++ w) = [c, e, w] := by
  have hdata : (c ++ "," ++ e ++ "," ++ w).data = c.data ++ ',' :: (e.data ++ ',' :: w.data) := by
    simp [String.data_append]
  have hsplit : splitCh ',' (c ++ "," ++ e ++ "," ++ w).data = [c.data, e.data, w.data] := by
    rw [hdata, splitCh_append ',' c.data _ hc, splitCh_append ',' e.data _ he,
      splitCh_no_delim ',' w.data hw]
  have hwd : w.data ≠ [] := by
    intro hcon
    apply hwne
    cases w with
    | mk d => simp at hcon; rw [hcon]
  unfold splitCSV
  rw [cppTokens_keep ',' _ w.data (by rw [hsplit]; rfl) hwd, hsplit]
  rfl

theorem jLookup_jset (j : Json) (k : String) (v : Json) (k2 : String) :
    jLookup (jset j k v) k2 = if k2 = k then v else jLookup j k2 := by
  cases j with
  | obj es => simp [jset, jLookup, lookupMap_insMapBy, insMapS]; split <;> simp [lookupMap]
  | null => simp [jset, jLookup, lookupMap]; split <;> rfl
  | jbool b => simp [jset, jLookup, lookupMap]; split <;> rfl
  | num q => simp [jset, jLookup, lookupMap]; split <;> rfl
  | str s => simp [jset, jLookup, lookupMap]; split <;> rfl
  | arr es => simp [jset, jLookup, lookupMap]; split <;> rfl

theorem lookupMap_some_mem {K V : Type} [DecidableEq K] (l : List (K × V)) (k : K) (v : V)
    (h : lookupMap l k = some v) : (k, v) ∈ l := by
  induction l with
  | nil => simp [lookupMap] at h
  | cons p t ih =>
    obtain ⟨k1, v1⟩ := p
    by_cases hk : k = k1
    · subst hk
      simp only [lookupMap, if_pos rfl] at h
      cases h
      exact List.mem_cons_self _ _
    · simp only [lookupMap, if_neg hk] at h
      exact List.mem_cons_of_mem _ (ih h)

/-- Area built by one authority-code CSV row. -/
def areaOfRow (r : String × String × String) : Area :=
  ((Area.make r.1).setName "eng" r.2.1).setName "cym" r.2.2

/-- CSV line of one authority-code row. -/
def lineOfRow (r : String × String × String) : String :=
  r.1 ++ "," ++ r.2.1 ++ "," ++ r.2.2

theorem areaOfRow_names (r : String × String × String) :
    (areaOfRow r).names = [("cym", r.2.2), ("eng", r.2.1)] := rfl

theorem processAuthorityCodeRow_eval (as : Areas) (r : String × String × String)
    (hc : ',' ∉ r.1.data) (he : ',' ∉ r.2.1.data) (hw : ',' ∉ r.2.2.data) (hwne : r.2.2 ≠ "") :
    processAuthorityCodeRow [] as (lineOfRow r) = .ok (as.insertArea (areaOfRow r)) := by
  unfold processAuthorityCodeRow lineOfRow
  rw [splitCSV_three r.1 r.2.1 r.2.2 hc he hw hwne]
  simp [areaOfRow]

/-- The result of the CSV parser on well-formed rows: a left fold of
`insertArea` over the per-row areas. -/
theorem populateAuthorityCodeCSV_eval (rows : List (String × String × String)) (as0 : Areas)
    (hf : ∀ r ∈ rows, ',' ∉ r.1.data ∧ ',' ∉ r.2.1.data ∧ ',' ∉ r.2.2.data ∧ r.2.2 ≠ "") :
    Areas.populateFromAuthorityCodeCSV as0 ("AuthorityCode,eng,cym" :: rows.map lineOfRow)
        [] [] =
      .ok (rows.foldl (fun as r => as.insertArea (areaOfRow r)) as0) := by
  unfold Areas.populateFromAuthorityCodeCSV
  induction rows generalizing as0 with
  | nil => rfl
  | cons r t ih =>
    obtain ⟨h1, h2, h3, h4⟩ := hf r (List.mem_cons_self _ _)
    simp only [List.map_cons, List.foldlM_cons, List.foldl_cons]
    rw [processAuthorityCodeRow_eval as0 r h1 h2 h3 h4]
    simp only [bind, Except.bind]
    exact ih (as0.insertArea (areaOfRow r)) (fun q hq => hf q (List.mem_cons_of_mem _ hq))

theorem lookup_insertArea (as : Areas) (ar : Area) (k : String) :
    lookupMap (as.insertArea ar).areas k =
      match lookupMap as.areas ar.getLocalAuthorityCode with
      | some _ => lookupMap as.areas k
      | none => if k = ar.getLocalAuthorityCode then some ar else lookupMap as.areas k := by
  unfold Areas.insertArea insMapKeepS
  rw [lookupMap_insMapKeepBy]
  cases lookupMap as.areas ar.getLocalAuthorityCode <;> rfl

theorem lookup_fold_insertArea_frame (rs : List (String × String × String)) (as0 : Areas)
    (k : String) (h : ∀ r ∈ rs, r.1 ≠ k) :
    lookupMap ((rs.foldl (fun as r => as.insertArea (areaOfRow r)) as0).areas) k =
      lookupMap as0.areas k := by
  induction rs generalizing as0 with
  | nil => rfl
  | cons r t ih =>
    simp only [List.foldl_cons]
    rw [ih (as0.insertArea (areaOfRow r)) (fun q hq => h q (List.mem_cons_of_mem _ hq))]
    rw [lookup_insertArea]
    have hk : ¬ k = (areaOfRow r).getLocalAuthorityCode :=
      fun hc => h r (List.mem_cons_self _ _) (by
        have : (areaOfRow r).getLocalAuthorityCode = r.1 := rfl
        rw [← this, ← hc])
    cases lookupMap as0.areas (areaOfRow r).getLocalAuthorityCode <;> simp [hk]

theorem lookup_fold_insertArea (rs : List (String × String × String)) (as0 : Areas)
    (hnd : (rs.map (fun r => r.1)).Nodup)
    (habs : ∀ r ∈ rs, lookupMap as0.areas r.1 = none) :
    ∀ r ∈ rs, lookupMap ((rs.foldl (fun as r => as.insertArea (areaOfRow r)) as0).areas) r.1 =
      some (areaOfRow r) := by
  induction rs generalizing as0 with
  | nil => intro r hr; exact absurd hr (List.not_mem_nil r)
  | cons r0 t ih =>
    intro r hr
    have hcode0 : (areaOfRow r0).getLocalAuthorityCode = r0.1 := rfl
    have h0 : lookupMap as0.areas r0.1 = none := habs r0 (List.mem_cons_self _ _)
    rcases List.mem_cons.mp hr with hre | hrt
    · subst hre
      simp only [List.foldl_cons]
      have hnotin : ∀ q ∈ t, q.1 ≠ r.1 := by
        intro q hq hc
        rcases List.nodup_cons.mp hnd with ⟨hni, _⟩
        exact hni (List.mem_map.mpr ⟨q, hq, hc⟩)
      rw [lookup_fold_insertArea_frame t _ r.1 hnotin]
      rw [lookup_insertArea, hcode0, h0]
      simp
    · simp only [List.foldl_cons]
      rcases List.nodup_cons.mp hnd with ⟨hni, hnd2⟩
      refine ih (as0.insertArea (areaOfRow r0)) hnd2 ?_ r hrt
      intro q hq
      rw [lookup_insertArea, hcode0, h0]
      have hq1 : ¬ q.1 = r0.1 := by
        intro hc
        exact hni (List.mem_map.mpr ⟨q, hq, hc⟩)
      simp [hq1]
      exact habs q (List.mem_cons_of_mem _ hq)

theorem mem_fold_insertArea (rs : List (String × String × String)) (as0 : Areas)
    (p : String × Area) :
    p ∈ (rs.foldl (fun as r => as.insertArea (areaOfRow r)) as0).areas →
      p ∈ as0.areas ∨ ∃ r ∈ rs, p = (r.1, areaOfRow r) := by
  induction rs generalizing as0 with
  | nil => exact fun h => Or.inl h
  | cons r t ih =>
    intro h
    simp only [List.foldl_cons] at h
    rcases ih (as0.insertArea (areaOfRow r)) h with h2 | ⟨q, hq, hpq⟩
    · unfold Areas.insertArea insMapKeepS at h2
      rcases mem_insMapKeepBy strLtB as0.areas _ (areaOfRow r) p h2 with h3 | h3
      · exact Or.inr ⟨r, List.mem_cons_self _ _, h3⟩
      · exact Or.inl h3
    · exact Or.inr ⟨q, List.mem_cons_of_mem _ hq, hpq⟩

theorem pairwise_fold_insertArea (rs : List (String × String × String)) (as0 : Areas)
    (h : as0.areas.Pairwise (fun p q => strLtB p.1 q.1 = true)) :
    ((rs.foldl (fun as r => as.insertArea (areaOfRow r)) as0).areas).Pairwise
      (fun p q => strLtB p.1 q.1 = true) := by
  induction rs generalizing as0 with
  | nil => exact h
  | cons r t ih =>
    simp only [List.foldl_cons]
    refine ih (as0.insertArea (areaOfRow r)) ?_
    unfold Areas.insertArea insMapKeepS
    exact pairwise_insMapKeepBy strLtB (fun h1 h2 => strLtB_trans h1 h2)
      (fun h1 h2 => strLtB_total h1 h2) as0.areas _ (areaOfRow r) h

/-- Per-area json value produced by `toJSON` for an authority-code-CSV area:
no measures, and a names object with the Welsh and English entries. -/
def rowAreaJson (e w : String) : Json :=
  Json.obj [("measures", Json.null),
    ("names", Json.obj [("cym", Json.str w), ("eng", Json.str e)])]

theorem toJSONAreaEntry_row (j : Json) (c e w : String) :
    toJSONAreaEntry j (c, areaOfRow (c, e, w)) = .ok (jset j c (rowAreaJson e w)) := rfl

theorem areaOfRow_inj_names {c : String} {e0 w0 e w : String}
    (h : areaOfRow (c, e0, w0) = areaOfRow (c, e, w)) : e0 = e ∧ w0 = w := by
  have hn := congrArg Area.names h
  rw [areaOfRow_names, areaOfRow_names] at hn
  simp at hn
  exact ⟨hn.2, hn.1⟩

theorem toJSON_fold (entries : List (String × Area)) (j : Json)
    (hshape : ∀ p ∈ entries, ∃ e w, p.2 = areaOfRow (p.1, e, w))
    (hdist : entries.Pairwise (fun p q => p.1 ≠ q.1)) :
    ∃ jv, entries.foldlM toJSONAreaEntry j = .ok jv ∧
      (∀ k, (∀ p ∈ entries, p.1 ≠ k) → jLookup jv k = jLookup j k) ∧
      (∀ p ∈ entries, ∀ e w, p.2 = areaOfRow (p.1, e, w) →
        jLookup jv p.1 = rowAreaJson e w) := by
  induction entries generalizing j with
  | nil =>
    refine ⟨j, rfl, fun k _ => rfl, ?_⟩
    intro p hp
    exact absurd hp (List.not_mem_nil p)
  | cons p t ih =>
    obtain ⟨e0, w0, hp⟩ := hshape p (List.mem_cons_self _ _)
    have hpeq : p = (p.1, areaOfRow (p.1, e0, w0)) := by rw [← hp]
    rcases List.pairwise_cons.mp hdist with ⟨hhead, htail⟩
    have hstep : toJSONAreaEntry j p = .ok (jset j p.1 (rowAreaJson e0 w0)) := by
      rw [hpeq]
      exact toJSONAreaEntry_row j p.1 e0 w0
    obtain ⟨jv, hfold, hframe, hper⟩ := ih (jset j p.1 (rowAreaJson e0 w0))
      (fun q hq => hshape q (List.mem_cons_of_mem _ hq)) htail
    refine ⟨jv, ?_, ?_, ?_⟩
    · simp only [List.foldlM_cons, hstep, bind, Except.bind]
      exact hfold
    · intro k hk
      rw [hframe k (fun q hq => hk q (List.mem_cons_of_mem _ hq))]
      rw [jLookup_jset]
      have : ¬ k = p.1 := fun hc => hk p (List.mem_cons_self _ _) hc.symm
      simp [this]
    · intro q hq e w hqe
      rcases List.mem_cons.mp hq with hqp | hqt
      · subst hqp
        have hlk : jLookup jv q.1 = jLookup (jset j q.1 (rowAreaJson e0 w0)) q.1 := by
          refine hframe q.1 ?_
          intro u hu
          exact (hhead u hu).symm
        rw [hlk, jLookup_jset, if_pos rfl]
        have heq : areaOfRow (q.1, e0, w0) = areaOfRow (q.1, e, w) := by rw [← hp, ← hqe]
        obtain ⟨he, hw⟩ := areaOfRow_inj_names heq
        rw [he, hw]
      · exact hper q hqt e w hqe

/-- Claim C8: ingesting a well-formed authority-code CSV (each data row with
three comma-free fields and pairwise-distinct authority codes) and
serializing with `toJSON` yields, for every row, a "names" sub-object whose
"eng" and "cym" entries are exactly that row's English and Welsh names. -/
theorem claim8_roundtrip (rows : List (String × String × String))
    (hf : ∀ r ∈ rows, ',' ∉ r.1.data ∧ ',' ∉ r.2.1.data ∧ ',' ∉ r.2.2.data ∧ r.2.2 ≠ "")
    (hnd : (rows.map (fun r => r.1)).Nodup) :
    ∃ (A : Areas) (jv : Json),
      Areas.populateFromAuthorityCodeCSV ⟨[]⟩
          ("AuthorityCode,eng,cym" :: rows.map lineOfRow) [] [] = .ok A ∧
      A.toJSONValue = .ok jv ∧
      ∀ r ∈ rows,
        jLookup (jLookup (jLookup jv r.1) "names") "eng" = Json.str r.2.1 ∧
        jLookup (jLookup (jLookup jv r.1) "names") "cym" = Json.str r.2.2 := by
  set A : Areas := rows.foldl (fun as r => as.insertArea (areaOfRow r)) ⟨[]⟩ with hA
  have hshape : ∀ p ∈ A.areas, ∃ e w, p.2 = areaOfRow (p.1, e, w) := by
    intro p hp
    rcases mem_fold_insertArea rows ⟨[]⟩ p hp with h | ⟨r, hr, hpr⟩
    · exact absurd h (List.not_mem_nil p)
    · exact ⟨r.2.1, r.2.2, by rw [hpr]⟩
  have hsorted : A.areas.Pairwise (fun p q => strLtB p.1 q.1 = true) :=
    pairwise_fold_insertArea rows ⟨[]⟩ (List.Pairwise.nil)
  have hdist : A.areas.Pairwise (fun p q => p.1 ≠ q.1) := by
    refine hsorted.imp ?_
    intro a b hab hc
    rw [hc] at hab
    rw [strLtB_irrefl] at hab
    exact Bool.false_ne_true hab
  obtain ⟨jv, hfold, _hframe, hper⟩ := toJSON_fold A.areas Json.null hshape hdist
  refine ⟨A, jv, ?_, hfold, ?_⟩
  · exact populateAuthorityCodeCSV_eval rows ⟨[]⟩ hf
  · intro r hr
    have hlk : lookupMap A.areas r.1 = some (areaOfRow r) := by
      refine lookup_fold_insertArea rows ⟨[]⟩ hnd ?_ r hr
      intro q _
      rfl
    have hmem : (r.1, areaOfRow r) ∈ A.areas := lookupMap_some_mem A.areas r.1 (areaOfRow r) hlk
    have hjv : jLookup jv r.1 = rowAreaJson r.2.1 r.2.2 :=
      hper (r.1, areaOfRow r) hmem r.2.1 r.2.2 rfl
    rw [hjv]
    constructor <;> rfl

/-- Witness for C8 at the single-row CSV of the specification's end-to-end
scenario: authority code W06000023 with English and Welsh name "Powys". -/
theorem claim8_roundtrip_witness :
    ∃ (A : Areas) (jv : Json),
      Areas.populateFromAuthorityCodeCSV ⟨[]⟩
          ("AuthorityCode,eng,cym" :: [("W06000023", "Powys", "Powys")].map lineOfRow)
          [] [] = .ok A ∧
      A.toJSONValue = .ok jv ∧
      ∀ r ∈ [("W06000023", "Powys", "Powys")],
        jLookup (jLookup (jLookup jv r.1) "names") "eng" = Json.str r.2.1 ∧
        jLookup (jLookup (jLookup jv r.1) "names") "cym" = Json.str r.2.2 :=
  claim8_roundtrip [("W06000023", "Powys", "Powys")] (by decide) (by decide)

/-!
Claim C9: the text rendering of the collection.
-/

/-- Counterexample to C9 as stated: the collection renderer never prints
"Unnamed" — for an area with no names at all, the unguarded
`getName("eng")` call throws NotFound and the rendering fails. (The
"Unnamed" text exists only in the standalone per-Area renderer, which the
collection renderer does not use.) -/
theorem claim9_counterexample :
    Areas.render ⟨[("W1", Area.make "W1")]⟩ (fun _ => "") = .error "Language not found" ∧
    Area.render (Area.make "W1") (fun _ => "") =
      "Unnamed" ++ "\n" ++ "Local authority code: W1" ++ "\n" ++ "<no measures>" ++ "\n" := by
  constructor
  · rfl
  · rfl

/-- Specification-side description of one area's block in the collection
rendering (§4.3 and §6 of the spec, restricted to areas that do have an
English name): the English-and-Welsh header when a Welsh name exists, the
English-only header otherwise, then either `<no measures>` or the measure
blocks in the container's order. -/
def renderAreaBlockSpec (fmtV : Rat → String) (areaCode : String) (area : Area) : String :=
  (match lookupMap area.names "cym" with
    | some cym =>
      ((lookupMap area.names "eng").getD "") ++ " / " ++ cym ++ " (" ++ areaCode ++ ")" ++ "\n"
    | none => ((lookupMap area.names "eng").getD "") ++ " (" ++ areaCode ++ ")" ++ "\n")
  ++ (if area.measures.isEmpty then "<no measures>" ++ "\n"
      else String.join (area.measures.map (fun mp => areasMeasureLines fmtV mp.2)))

theorem renderAreaBlock_eval (fmtV : Rat → String) (areaCode : String) (area : Area)
    (heng : (lookupMap area.names "eng").isSome) :
    renderAreaBlock fmtV areaCode area = .ok (renderAreaBlockSpec fmtV areaCode area) := by
  obtain ⟨e, he⟩ := Option.isSome_iff_exists.mp heng
  have hge : area.getName "eng" = .ok e := by
    unfold Area.getName
    simp only [show toLowerStr "eng" = "eng" from by decide, he]
  have hgc : area.getName "cym" =
      (match lookupMap area.names "cym" with
        | some c => .ok c
        | none => .error "Language not found") := by
    unfold Area.getName
    simp only [show toLowerStr "cym" = "cym" from by decide]
    cases lookupMap area.names "cym" <;> rfl
  unfold renderAreaBlock renderAreaBlockSpec
  cases hcym : lookupMap area.names "cym" with
  | some c =>
    rw [hcym] at hgc
    simp only [hgc, hge, he, bind, Except.bind, pure, Except.pure, Option.getD]
    rfl
  | none =>
    rw [hcym] at hgc
    simp only [hgc, hge, he, bind, Except.bind, pure, Except.pure, Option.getD]
    rfl

theorem mapM_ok_of_forall {α β : Type} (f : α → Except String β) (g : α → β)
    (l : List α) (h : ∀ x ∈ l, f x = .ok (g x)) : l.mapM f = .ok (l.map g) := by
  induction l with
  | nil => rfl
  | cons x t ih =>
    rw [List.mapM_cons, h x (List.mem_cons_self _ _)]
    rw [ih (fun y hy => h y (List.mem_cons_of_mem _ hy))]
    rfl

/-- Claim C9 (corrected): given the `std::map` invariants — the areas
container sorted by authority code and each measures container sorted by
measure code — and an English name for every area, the collection renderer
succeeds and emits exactly one block per area in container order, each block
showing the English-and-Welsh header when a Welsh name exists and the
English-only header otherwise, followed by `<no measures>` for a measureless
area; the emitted authority codes and each area's measure codes are in
sorted order. An area with no names at all makes the rendering fail with
NotFound instead of printing "Unnamed" (see the counterexample). -/
theorem claim9_render_order_and_names (as : Areas) (fmtV : Rat → String)
    (hsorted : as.areas.Pairwise (fun p q => strLtB p.1 q.1 = true))
    (heng : ∀ p ∈ as.areas, (lookupMap p.2.names "eng").isSome)
    (hms : ∀ p ∈ as.areas, p.2.measures.Pairwise (fun m1 m2 => strLtB m1.1 m2.1 = true)) :
    Areas.render as fmtV =
      .ok (String.join (as.areas.map (fun p => renderAreaBlockSpec fmtV p.1 p.2))) ∧
    (as.areas.map (fun p => p.1)).Pairwise (fun a b => strLtB a b = true) ∧
    ∀ p ∈ as.areas,
      (p.2.measures.map (fun m => m.1)).Pairwise (fun a b => strLtB a b = true) := by
  refine ⟨?_, ?_, ?_⟩
  · unfold Areas.render
    rw [mapM_ok_of_forall (fun p => renderAreaBlock fmtV p.1 p.2)
      (fun p => renderAreaBlockSpec fmtV p.1 p.2) as.areas
      (fun p hp => renderAreaBlock_eval fmtV p.1 p.2 (heng p hp))]
    rfl
  · exact List.pairwise_map.mpr hsorted
  · intro p hp
    exact List.pairwise_map.mpr (hms p hp)

/-- Witness for C9's corrected theorem at a concrete two-area collection:
one area with both names and one measure, one area with only an English name
and no measures; the rendering succeeds with the blocks in key order. -/
theorem claim9_render_order_and_names_witness :
    Areas.render ⟨[("W1", ⟨"W1", [("cym", "Powys"), ("eng", "Powys")],
        [("pop", ⟨"pop", "Population", [(2020, 5)]⟩)]⟩),
      ("W2", ⟨"W2", [("eng", "Cardiff")], []⟩)]⟩ (fun _ => "x") =
      .ok (String.join
        ([("W1", (⟨"W1", [("cym", "Powys"), ("eng", "Powys")],
            [("pop", ⟨"pop", "Population", [(2020, 5)]⟩)]⟩ : Area)),
          ("W2", ⟨"W2", [("eng", "Cardiff")], []⟩)].map
          (fun p => renderAreaBlockSpec (fun _ => "x") p.1 p.2))) :=
  (claim9_render_order_and_names ⟨[("W1", ⟨"W1", [("cym", "Powys"), ("eng", "Powys")],
      [("pop", ⟨"pop", "Population", [(2020, 5)]⟩)]⟩),
    ("W2", ⟨"W2", [("eng", "Cardiff")], []⟩)]⟩ (fun _ => "x")
    (by decide) (by decide) (by decide)).1
